import Mathlib

/-!
Verification of the blepp BLE GATT protocol layer: a shallow embedding of
the attribute database (src/bleattributedb.cc), the ATT server state
machine (src/blegattserver.cc) and the advertising-report decoding
(src/lescan.cc), with theorems settling the specification claims.

Bytes are modelled as `Nat` values below 256; byte strings as `List Nat`.
Machine-integer narrowing that the C++ performs (uint8_t, uint16_t) is
made explicit with `% 256` / `% 65536` where it matters.
-/

namespace BLEPP

/-! ATT opcodes, as defined at the top of src/blegattserver.cc. -/

def ATT_OP_ERROR : Nat := 0x01
def ATT_OP_MTU_REQ : Nat := 0x02
def ATT_OP_MTU_RSP : Nat := 0x03
def ATT_OP_FIND_INFO_REQ : Nat := 0x04
def ATT_OP_READ_BY_TYPE_REQ : Nat := 0x08
def ATT_OP_READ_BY_TYPE_RSP : Nat := 0x09
def ATT_OP_READ_REQ : Nat := 0x0A
def ATT_OP_READ_RSP : Nat := 0x0B
def ATT_OP_READ_BLOB_REQ : Nat := 0x0C
def ATT_OP_READ_BLOB_RSP : Nat := 0x0D
def ATT_OP_READ_BY_GROUP_TYPE_REQ : Nat := 0x10
def ATT_OP_READ_BY_GROUP_TYPE_RSP : Nat := 0x11
def ATT_OP_WRITE_REQ : Nat := 0x12
def ATT_OP_WRITE_RSP : Nat := 0x13
def ATT_OP_HANDLE_NOTIFY : Nat := 0x1B
def ATT_OP_HANDLE_INDICATE : Nat := 0x1D
def ATT_DEFAULT_MTU : Nat := 23
def ATT_MAX_MTU : Nat := 517

/-- Modelled from the spec: the ATT error-code constants come from
blepp/att.h, which is not under src/ (only its users are).  Spec section
4.E lists the numeric codes: 0x01 InvalidHandle, 0x02 ReadNotPermitted,
0x03 WriteNotPermitted, 0x04 InvalidPdu, 0x06 RequestNotSupported,
0x07 InvalidOffset, 0x0A AttributeNotFound, 0x10 UnsupportedGroupType. -/
def BLE_ATT_ERR_INVALID_HANDLE : Nat := 0x01

def BLE_ATT_ERR_READ_NOT_PERM : Nat := 0x02
def BLE_ATT_ERR_WRITE_NOT_PERM : Nat := 0x03
def BLE_ATT_ERR_INVALID_PDU : Nat := 0x04
def BLE_ATT_ERR_REQ_NOT_SUPPORTED : Nat := 0x06
def BLE_ATT_ERR_INVALID_OFFSET : Nat := 0x07
def BLE_ATT_ERR_ATTR_NOT_FOUND : Nat := 0x0A
def BLE_ATT_ERR_UNSUPPORTED_GROUP_TYPE : Nat := 0x10

/-- Low byte of a 16-bit value, as in the C++ pattern `x & 0xFF`. -/
def lo (x : Nat) : Nat := x % 256

/-- High byte of a 16-bit value, as in the C++ pattern `(x >> 8) & 0xFF`. -/
def hi (x : Nat) : Nat := x / 256 % 256

/-- Modelled from the spec: the UUID class lives in blepp/blestatemachine.h
and blepp/att.h, which are not under src/.  Spec section 3: a UUID is a
tagged value, either a 16-bit short UUID or a full 128-bit UUID. -/
inductive UUID where
  | u16 (v : Nat)
  | u128 (bytes : List Nat)
deriving DecidableEq, Repr

/-- Modelled from the spec: 128-bit little-endian widening of a UUID to
the Bluetooth Base UUID 0000xxxx-0000-1000-8000-00805F9B34FB, used for
equality ("Equality compares after widening the short form to the
Bluetooth Base UUID", spec section 3). -/
def UUID.widen : UUID → List Nat
  | .u16 v => [0xFB, 0x34, 0x9B, 0x5F, 0x80, 0x00, 0x00, 0x80,
               0x00, 0x10, 0x00, 0x00, lo v, hi v, 0x00, 0x00]
  | .u128 bytes => bytes

/-- Modelled from the spec: UUID equality compares the widened 128-bit
forms (spec section 3). -/
def uuidEq (a b : UUID) : Bool := a.widen == b.widen

/-- Attribute types, from blepp/bleattributedb.h `enum class AttributeType`. -/
inductive AttributeType where
  | PRIMARY_SERVICE
  | SECONDARY_SERVICE
  | INCLUDE
  | CHARACTERISTIC
  | CHARACTERISTIC_VALUE
  | DESCRIPTOR
deriving DecidableEq, Repr

/-- Attribute permissions, from blepp/bleattributedb.h `enum ATTPermissions`. -/
def ATT_PERM_READ : Nat := 0x01

def ATT_PERM_WRITE : Nat := 0x02
def ATT_PERM_READ_ENCRYPT : Nat := 0x04
def ATT_PERM_WRITE_ENCRYPT : Nat := 0x08
def ATT_PERM_READ_AUTHEN : Nat := 0x10
def ATT_PERM_WRITE_AUTHEN : Nat := 0x20
def ATT_PERM_READ_AUTHOR : Nat := 0x40
def ATT_PERM_WRITE_AUTHOR : Nat := 0x80

/-- Characteristic property bits, from blepp/bleattributedb.h
`enum GATTCharProperties`. -/
def GATT_CHR_PROP_BROADCAST : Nat := 0x01

def GATT_CHR_PROP_READ : Nat := 0x02
def GATT_CHR_PROP_WRITE_NO_RSP : Nat := 0x04
def GATT_CHR_PROP_WRITE : Nat := 0x08
def GATT_CHR_PROP_NOTIFY : Nat := 0x10
def GATT_CHR_PROP_INDICATE : Nat := 0x20
def GATT_CHR_PROP_AUTH_WRITE : Nat := 0x40

/-- NimBLE-style characteristic flag bits, from blepp/bleattributedb.h
`enum GATTCharFlags`. -/
def GATT_CHR_F_BROADCAST : Nat := 0x0001

def GATT_CHR_F_READ : Nat := 0x0002
def GATT_CHR_F_WRITE_NO_RSP : Nat := 0x0004
def GATT_CHR_F_WRITE : Nat := 0x0008
def GATT_CHR_F_NOTIFY : Nat := 0x0010
def GATT_CHR_F_INDICATE : Nat := 0x0020
def GATT_CHR_F_AUTH_SIGN_WRITE : Nat := 0x0040
def GATT_CHR_F_READ_ENC : Nat := 0x0200
def GATT_CHR_F_READ_AUTHEN : Nat := 0x0400
def GATT_CHR_F_READ_AUTHOR : Nat := 0x0800
def GATT_CHR_F_WRITE_ENC : Nat := 0x1000
def GATT_CHR_F_WRITE_AUTHEN : Nat := 0x2000
def GATT_CHR_F_WRITE_AUTHOR : Nat := 0x4000

/-- A single attribute row, from blepp/bleattributedb.h `struct Attribute`.
The read hook returns the C++ out-parameter pair (result code, out_data);
the write hook returns the result code.  The constructor defaults mirror
`Attribute::Attribute()`: handle 0, type DESCRIPTOR, permissions 0,
properties 0, value_handle 0, end_group_handle 0xFFFF, empty value,
no hooks. -/
structure Attribute where
  handle : Nat := 0
  type : AttributeType := .DESCRIPTOR
  uuid : UUID := .u16 0
  permissions : Nat := 0
  value : List Nat := []
  properties : Nat := 0
  value_handle : Nat := 0
  end_group_handle : Nat := 0xFFFF
  read_cb : Option (Nat → Nat → Nat × List Nat) := none
  write_cb : Option (Nat → List Nat → Nat) := none

/-- Lookup by handle in an attribute list ordered by handle, mirroring
`std::map<uint16_t, Attribute>::find` in `BLEAttributeDatabase::get_attribute`. -/
def get_attribute (db : List Attribute) (h : Nat) : Option Attribute :=
  db.find? (fun a => a.handle == h)

/-- Per-connection server state, from blepp/blegattserver.h
`struct ConnectionState`: negotiated MTU plus the CCCD subscription map
`char_value_handle → u16 bits`. -/
structure ConnectionState where
  conn_handle : Nat := 0
  mtu : Nat := ATT_DEFAULT_MTU
  connected : Bool := true
  cccd_values : List (Nat × Nat) := []

/-- Read of `std::map<uint16_t,uint16_t>::operator[]`: a missing key reads
as the value-initialized 0. -/
def mapGetD (m : List (Nat × Nat)) (k : Nat) : Nat :=
  match m.find? (fun p => p.1 == k) with
  | some p => p.2
  | none => 0

/-- Write through `std::map::operator[]` (replace or insert). -/
def mapSet : List (Nat × Nat) → Nat → Nat → List (Nat × Nat)
  | [], k, v => [(k, v)]
  | p :: rest, k, v =>
    if p.1 == k then (k, v) :: rest else p :: mapSet rest k v

/-- Server-side state relevant to the embedded handlers: the attribute
database rows and the connection table.  The transport's per-connection
MTU is kept in lock-step with `ConnectionState.mtu` by the server
(`handle_mtu_exchange_req` updates both), so a single field models both. -/
structure ServerState where
  db : List Attribute := []
  connections : List (Nat × ConnectionState) := []

/-- Connection-table lookup (`connections_.find(conn_handle)`). -/
def connLookup (st : ServerState) (conn : Nat) : Option ConnectionState :=
  match st.connections.find? (fun p => p.1 == conn) with
  | some p => some p.2
  | none => none

/-- Update one connection's state in the table; no effect when absent. -/
def connUpdate (st : ServerState) (conn : Nat) (f : ConnectionState → ConnectionState) :
    ServerState :=
  { st with connections :=
      st.connections.map (fun p => if p.1 == conn then (p.1, f p.2) else p) }

/-- Transport MTU accessor, mirroring `BlueZTransport::get_mtu`: the stored
per-connection MTU, or the 23-byte default for an unknown connection. -/
def get_mtu (st : ServerState) (conn : Nat) : Nat :=
  match connLookup st conn with
  | some cs => cs.mtu
  | none => 23

/-- Error Response construction, from `BLEGATTServer::send_error_response`:
5 bytes 0x01, request opcode, handle little-endian, error code.  The C++
narrows the error code to uint8_t at the parameter boundary. -/
def send_error_response (opcode handle error_code : Nat) : List Nat :=
  [ATT_OP_ERROR, opcode % 256, lo handle, hi handle, error_code % 256]

/-- Read-hook invocation, from `BLEGATTServer::invoke_read_callback`:
with a hook, its result stands; without one, a static value is served
from `offset`, failing with InvalidOffset when `offset` is at or past the
end. -/
def invoke_read_callback (attr : Attribute) (conn offset : Nat) : Nat × List Nat :=
  match attr.read_cb with
  | some cb => cb conn offset
  | none =>
    if offset ≥ attr.value.length then (BLE_ATT_ERR_INVALID_OFFSET, [])
    else (0, attr.value.drop offset)

/-- Read Response construction, from `BLEGATTServer::send_read_rsp`:
opcode 0x0B followed by the value truncated to MTU-1 bytes. -/
def send_read_rsp (mtu : Nat) (value : List Nat) : List Nat :=
  ATT_OP_READ_RSP :: value.take (mtu - 1)

/-- Little-endian u16 field read from a PDU, mirroring the C++ pattern
`pdu[i] | (pdu[i+1] << 8)` (PDU bytes are uint8_t, hence below 256). -/
def pduU16 (pdu : List Nat) (i : Nat) : Nat :=
  pdu.getD i 0 + 256 * pdu.getD (i + 1) 0

/-- Read Blob Request handler, from `BLEGATTServer::handle_read_blob_req`.
Returns the single PDU the handler sends.  Note the source passes `offset`
to `invoke_read_callback` (which already drops `offset` bytes of a static
value) and then checks and drops `offset` again on the returned data, and
answers via `send_read_rsp` (opcode 0x0B). -/
def handle_read_blob_req (st : ServerState) (conn : Nat) (pdu : List Nat) : List Nat :=
  if pdu.length < 5 then
    send_error_response ATT_OP_READ_BLOB_REQ 0 BLE_ATT_ERR_INVALID_PDU
  else
    let handle := pduU16 pdu 1
    let offset := pduU16 pdu 3
    match get_attribute st.db handle with
    | none => send_error_response ATT_OP_READ_BLOB_REQ handle BLE_ATT_ERR_INVALID_HANDLE
    | some attr =>
      if attr.permissions &&& ATT_PERM_READ == 0 then
        send_error_response ATT_OP_READ_BLOB_REQ handle BLE_ATT_ERR_READ_NOT_PERM
      else
        let r := invoke_read_callback attr conn offset
        if r.1 ≠ 0 then
          send_error_response ATT_OP_READ_BLOB_REQ handle r.1
        else if offset ≥ r.2.length then
          send_error_response ATT_OP_READ_BLOB_REQ handle BLE_ATT_ERR_INVALID_OFFSET
        else
          send_read_rsp (get_mtu st conn) (r.2.drop offset)

/-- MTU Exchange Response construction, from
`BLEGATTServer::send_mtu_exchange_rsp`: opcode 0x03 and the server MTU
little-endian. -/
def send_mtu_exchange_rsp (server_mtu : Nat) : List Nat :=
  [ATT_OP_MTU_RSP, lo server_mtu, hi server_mtu]

/-- MTU Exchange Request handler, from
`BLEGATTServer::handle_mtu_exchange_req`: negotiate
`min(client_mtu, ATT_MAX_MTU)`, store it in the connection state and the
transport, reply with the server maximum.  Returns the updated state and
the PDU sent. -/
def handle_mtu_exchange_req (st : ServerState) (conn : Nat) (pdu : List Nat) :
    ServerState × List Nat :=
  if pdu.length < 3 then
    (st, send_error_response ATT_OP_MTU_REQ 0 BLE_ATT_ERR_INVALID_PDU)
  else
    let client_mtu := pduU16 pdu 1
    let negotiated_mtu := min client_mtu ATT_MAX_MTU
    let st' := connUpdate st conn (fun cs => { cs with mtu := negotiated_mtu })
    (st', send_mtu_exchange_rsp ATT_MAX_MTU)

/-- CCCD write handling, from `BLEGATTServer::handle_cccd_write`: stores
the 16-bit CCCD value for this connection, keyed by the CCCD handle minus
one (the characteristic value handle); no effect for an unknown
connection.  `cccd_handle - 1` is computed on uint16_t in the source, so
handle 0 would wrap to 0xFFFF. -/
def handle_cccd_write (st : ServerState) (conn cccd_handle value : Nat) : ServerState :=
  match connLookup st conn with
  | none => st
  | some _ =>
    let char_handle := if cccd_handle == 0 then 0xFFFF else cccd_handle - 1
    connUpdate st conn (fun cs =>
      { cs with cccd_values := mapSet cs.cccd_values char_handle value })

/-- Write-hook invocation, from `BLEGATTServer::invoke_write_callback`:
with a hook, its result code stands and the row is untouched; without
one, the static value is replaced and 0 is returned.  Returns the result
code and the (possibly updated) attribute row. -/
def invoke_write_callback (attr : Attribute) (conn : Nat) (data : List Nat) :
    Nat × Attribute :=
  match attr.write_cb with
  | some cb => (cb conn data, attr)
  | none => (0, { attr with value := data })

/-- Replace the attribute row with the given handle (the C++ mutates the
row in place through the `get_attribute` pointer). -/
def dbReplace : List Attribute → Nat → Attribute → List Attribute
  | [], _, _ => []
  | a :: rest, h, a' =>
    if a.handle == h then a' :: rest else a :: dbReplace rest h a'

/-- Write Request handler, from `BLEGATTServer::handle_write_req`.
Look the handle up, check write permission, perform the CCCD side effect
first when the row carries UUID 0x2902 and the value is 2 bytes, then
invoke the write hook (or replace the static value), answering 0x13 on
success and an Error Response with the hook's code otherwise.  Returns
the updated state and the PDU sent. -/
def handle_write_req (st : ServerState) (conn : Nat) (pdu : List Nat) :
    ServerState × List Nat :=
  if pdu.length < 3 then
    (st, send_error_response ATT_OP_WRITE_REQ 0 BLE_ATT_ERR_INVALID_PDU)
  else
    let handle := pduU16 pdu 1
    let value := pdu.drop 3
    match get_attribute st.db handle with
    | none => (st, send_error_response ATT_OP_WRITE_REQ handle BLE_ATT_ERR_INVALID_HANDLE)
    | some attr =>
      if attr.permissions &&& ATT_PERM_WRITE == 0 then
        (st, send_error_response ATT_OP_WRITE_REQ handle BLE_ATT_ERR_WRITE_NOT_PERM)
      else
        let st1 :=
          if uuidEq attr.uuid (.u16 0x2902) && value.length == 2 then
            handle_cccd_write st conn handle (value.getD 0 0 + 256 * value.getD 1 0)
          else st
        let r := invoke_write_callback attr conn value
        if r.1 ≠ 0 then
          (st1, send_error_response ATT_OP_WRITE_REQ handle r.1)
        else
          ({ st1 with db := dbReplace st1.db handle r.2 }, [ATT_OP_WRITE_RSP])

/-- Notification emitter, from `BLEGATTServer::notify`: fails (returns
`none`, the C++ -1) for an unknown connection or when bit 0 of the
stored CCCD value for `char_val_handle` is clear; otherwise submits
opcode 0x1B, the handle little-endian, and the data verbatim. -/
def notify (st : ServerState) (conn char_val_handle : Nat) (data : List Nat) :
    Option (List Nat) :=
  match connLookup st conn with
  | none => none
  | some cs =>
    let cccd := mapGetD cs.cccd_values char_val_handle
    if cccd &&& 0x0001 == 0 then none
    else some ([ATT_OP_HANDLE_NOTIFY, lo char_val_handle, hi char_val_handle] ++ data)

/-- Value served for an attribute in `send_read_by_type_rsp`: the read
hook's data on success, and the static row value when the hook fails or
is absent (the handler falls back to `attr->value` on a non-zero code;
the hookless path of `invoke_read_callback` at offset 0 yields the row
value either way). -/
def read_attr_value (attr : Attribute) (conn : Nat) : List Nat :=
  let r := invoke_read_callback attr conn 0
  if r.1 ≠ 0 then attr.value else r.2

/-- Record loop of `BLEGATTServer::send_read_by_type_rsp`: starting from
`acc` bytes already in the response, append handle + value records until
the next record would exceed `max_data`; each value is truncated to
`(size_t)(uint8_t pair_len - 2)` bytes (integer promotion makes that cap
huge when `pair_len < 2`). -/
def read_by_type_loop (conn max_data pair_len : Nat) :
    List Attribute → Nat → List (List Nat)
  | [], _ => []
  | attr :: rest, acc =>
    if acc + pair_len > max_data then []
    else
      let value := read_attr_value attr conn
      let cap := (2 ^ 64 + pair_len - 2) % 2 ^ 64
      let record := [lo attr.handle, hi attr.handle] ++ value.take (min value.length cap)
      record :: read_by_type_loop conn max_data pair_len rest (acc + record.length)

/-- Read By Type Response construction, from
`BLEGATTServer::send_read_by_type_rsp`: opcode 0x09, the pair length
`uint8_t(2 + first value's length)`, then the records of
`read_by_type_loop` with `max_data = mtu - 2`. -/
def send_read_by_type_rsp (st : ServerState) (conn : Nat) (attrs : List Attribute) :
    List Nat :=
  match attrs with
  | [] => []
  | first :: _ =>
    let first_value := read_attr_value first conn
    let pair_len := (2 + first_value.length) % 256
    let max_data := get_mtu st conn - 2
    [ATT_OP_READ_BY_TYPE_RSP, pair_len] ++
      (read_by_type_loop conn max_data pair_len attrs 2).flatten

/-- Attribute search by type UUID, from
`BLEAttributeDatabase::find_by_type`: rows whose handle lies in the
inclusive range and whose type UUID equals the requested one, in
database (ascending handle) order. -/
def find_by_type (db : List Attribute) (start_handle end_handle : Nat) (type : UUID) :
    List Attribute :=
  db.filter (fun a =>
    start_handle ≤ a.handle && a.handle ≤ end_handle && uuidEq a.uuid type)

/-- Record loop of `BLEGATTServer::send_read_by_group_type_rsp`: append
(start, end_group, service-uuid-value) records while another full record
fits inside the MTU; a value shorter than the announced uuid size is
zero-padded. -/
def read_by_group_type_loop (mtu pair_len uuid_size : Nat) :
    List Attribute → Nat → List (List Nat)
  | [], _ => []
  | attr :: rest, acc =>
    if acc + pair_len > mtu then []
    else
      let uuid_bytes :=
        if attr.value.length ≥ uuid_size then attr.value.take uuid_size
        else attr.value ++ List.replicate (uuid_size - attr.value.length) 0
      let record := [lo attr.handle, hi attr.handle,
                     lo attr.end_group_handle, hi attr.end_group_handle] ++ uuid_bytes
      record :: read_by_group_type_loop mtu pair_len uuid_size rest (acc + record.length)

/-- Read By Group Type Response construction, from
`BLEGATTServer::send_read_by_group_type_rsp`: opcode 0x11, pair length
`4 + uint8_t(first value's length)`, then the records.  (The source's
20 ms sleep before sending has no effect on the bytes and is not
modelled.) -/
def send_read_by_group_type_rsp (st : ServerState) (conn : Nat)
    (attrs : List Attribute) : List Nat :=
  match attrs with
  | [] => []
  | first :: _ =>
    let uuid_size := first.value.length % 256
    let pair_len := (4 + uuid_size) % 256
    let mtu := get_mtu st conn
    [ATT_OP_READ_BY_GROUP_TYPE_RSP, pair_len] ++
      (read_by_group_type_loop mtu pair_len uuid_size attrs 2).flatten

/-- Read By Group Type Request handler, from
`BLEGATTServer::handle_read_by_group_type_req`: parse the range and the
16- or 128-bit type UUID (other lengths fail InvalidPdu); any group type
other than 0x2800 fails UnsupportedGroupType with the start handle
echoed; otherwise answer with the primary services found in range, or
AttributeNotFound.  Returns the PDU sent. -/
def handle_read_by_group_type_req (st : ServerState) (conn : Nat) (pdu : List Nat) :
    List Nat :=
  if pdu.length < 7 then
    send_error_response ATT_OP_READ_BY_GROUP_TYPE_REQ 0 BLE_ATT_ERR_INVALID_PDU
  else
    let start_handle := pduU16 pdu 1
    let end_handle := pduU16 pdu 3
    let parsed : Option UUID :=
      if pdu.length == 7 then some (.u16 (pduU16 pdu 5))
      else if pdu.length == 21 then some (.u128 ((pdu.drop 5).take 16))
      else none
    match parsed with
    | none => send_error_response ATT_OP_READ_BY_GROUP_TYPE_REQ 0 BLE_ATT_ERR_INVALID_PDU
    | some type_uuid =>
      if !uuidEq type_uuid (.u16 0x2800) then
        send_error_response ATT_OP_READ_BY_GROUP_TYPE_REQ start_handle
          BLE_ATT_ERR_UNSUPPORTED_GROUP_TYPE
      else
        let attrs := find_by_type st.db start_handle end_handle type_uuid
        if attrs.isEmpty then
          send_error_response ATT_OP_READ_BY_GROUP_TYPE_REQ start_handle
            BLE_ATT_ERR_ATTR_NOT_FOUND
        else
          send_read_by_group_type_rsp st conn attrs

/-! The attribute database, from src/bleattributedb.cc. -/

/-- Properties derivation from a NimBLE-style flag word, from
`BLEAttributeDatabase::flags_to_properties`. -/
def flags_to_properties (flags : Nat) : Nat :=
  let props := 0
  let props := if flags &&& GATT_CHR_F_BROADCAST ≠ 0 then props ||| GATT_CHR_PROP_BROADCAST else props
  let props := if flags &&& GATT_CHR_F_READ ≠ 0 then props ||| GATT_CHR_PROP_READ else props
  let props := if flags &&& GATT_CHR_F_WRITE_NO_RSP ≠ 0 then props ||| GATT_CHR_PROP_WRITE_NO_RSP else props
  let props := if flags &&& GATT_CHR_F_WRITE ≠ 0 then props ||| GATT_CHR_PROP_WRITE else props
  let props := if flags &&& GATT_CHR_F_NOTIFY ≠ 0 then props ||| GATT_CHR_PROP_NOTIFY else props
  let props := if flags &&& GATT_CHR_F_INDICATE ≠ 0 then props ||| GATT_CHR_PROP_INDICATE else props
  let props := if flags &&& GATT_CHR_F_AUTH_SIGN_WRITE ≠ 0 then props ||| GATT_CHR_PROP_AUTH_WRITE else props
  props

/-- Permissions derivation from a NimBLE-style flag word, from
`BLEAttributeDatabase::flags_to_permissions`.  The source maps only the
READ, WRITE/WRITE_NO_RSP, READ_ENC, WRITE_ENC, READ_AUTHEN and
WRITE_AUTHEN bits; READ_AUTHOR and WRITE_AUTHOR are not consulted. -/
def flags_to_permissions (flags : Nat) : Nat :=
  let perms := 0
  let perms := if flags &&& GATT_CHR_F_READ ≠ 0 then perms ||| ATT_PERM_READ else perms
  let perms := if flags &&& (GATT_CHR_F_WRITE ||| GATT_CHR_F_WRITE_NO_RSP) ≠ 0 then perms ||| ATT_PERM_WRITE else perms
  let perms := if flags &&& GATT_CHR_F_READ_ENC ≠ 0 then perms ||| ATT_PERM_READ_ENCRYPT else perms
  let perms := if flags &&& GATT_CHR_F_WRITE_ENC ≠ 0 then perms ||| ATT_PERM_WRITE_ENCRYPT else perms
  let perms := if flags &&& GATT_CHR_F_READ_AUTHEN ≠ 0 then perms ||| ATT_PERM_READ_AUTHEN else perms
  let perms := if flags &&& GATT_CHR_F_WRITE_AUTHEN ≠ 0 then perms ||| ATT_PERM_WRITE_AUTHEN else perms
  perms

/-- Service-range bookkeeping entry, from the private
`BLEAttributeDatabase::ServiceInfo`. -/
structure ServiceInfo where
  start_handle : Nat
  end_handle : Nat
deriving DecidableEq, Repr

/-- Database state: the handle-keyed attribute rows (kept in ascending
handle order, as `std::map` iteration yields them), the allocation
counter, and the service-range vector. -/
structure DbState where
  attributes : List Attribute := []
  next_handle : Nat := 1
  services : List ServiceInfo := []

/-- Handle allocation, from `BLEAttributeDatabase::allocate_handle`:
returns 0 (and leaves the counter alone) once the counter reaches
0xFFFF, otherwise the counter value before incrementing it. -/
def allocate_handle (st : DbState) : Nat × DbState :=
  if st.next_handle == 0xFFFF then (0, st)
  else (st.next_handle, { st with next_handle := st.next_handle + 1 })

/-- Keyed insertion in ascending handle order with replacement on an
equal key, as `attributes_[handle] = attr` behaves on `std::map`. -/
def insertAttr : List Attribute → Attribute → List Attribute
  | [], a => [a]
  | x :: rest, a =>
    if a.handle < x.handle then a :: x :: rest
    else if a.handle == x.handle then a :: rest
    else x :: insertAttr rest a

/-- Value bytes of a service declaration row: the contained UUID
little-endian (2 bytes for the 16-bit form, the 16 bytes of the 128-bit
form), as built in `add_primary_service` / `add_secondary_service`. -/
def serviceValueBytes : UUID → List Nat
  | .u16 v => [lo v, hi v]
  | .u128 bytes => bytes

/-- Update the first service entry with the given start handle (the loop
in `update_service_end_handle` breaks after the first match). -/
def updateFirstService : List ServiceInfo → Nat → Nat → List ServiceInfo
  | [], _, _ => []
  | s :: rest, start, last =>
    if s.start_handle == start then { s with end_handle := last } :: rest
    else s :: updateFirstService rest start last

/-- Service end-handle maintenance, from
`BLEAttributeDatabase::update_service_end_handle`: update the matching
`ServiceInfo` entry and the service attribute row's `end_group_handle`
(each step a no-op when its target is absent). -/
def update_service_end_handle (st : DbState) (service_handle last_handle : Nat) :
    DbState :=
  let services := updateFirstService st.services service_handle last_handle
  let attributes :=
    match get_attribute st.attributes service_handle with
    | some attr =>
      dbReplace st.attributes service_handle { attr with end_group_handle := last_handle }
    | none => st.attributes
  { st with services := services, attributes := attributes }

/-- Primary-service insertion, from
`BLEAttributeDatabase::add_primary_service`: allocate a handle, store a
row of type 0x2800 whose value is the service UUID, and append the
service range `[handle, handle]`.  The row's `end_group_handle` keeps
the constructor default 0xFFFF.  Returns the handle (0 on exhaustion)
and the new state. -/
def add_primary_service (st : DbState) (uuid : UUID) : Nat × DbState :=
  let (handle, st1) := allocate_handle st
  if handle == 0 then (0, st)
  else
    let attr : Attribute :=
      { handle := handle, type := .PRIMARY_SERVICE, uuid := .u16 0x2800,
        permissions := ATT_PERM_READ, value := serviceValueBytes uuid }
    let st2 := { st1 with
      attributes := insertAttr st1.attributes attr,
      services := st1.services ++ [⟨handle, handle⟩] }
    (handle, st2)

/-- Secondary-service insertion, from
`BLEAttributeDatabase::add_secondary_service` (type UUID 0x2801,
otherwise as the primary case). -/
def add_secondary_service (st : DbState) (uuid : UUID) : Nat × DbState :=
  let (handle, st1) := allocate_handle st
  if handle == 0 then (0, st)
  else
    let attr : Attribute :=
      { handle := handle, type := .SECONDARY_SERVICE, uuid := .u16 0x2801,
        permissions := ATT_PERM_READ, value := serviceValueBytes uuid }
    let st2 := { st1 with
      attributes := insertAttr st1.attributes attr,
      services := st1.services ++ [⟨handle, handle⟩] }
    (handle, st2)

/-- Include insertion, from `BLEAttributeDatabase::add_include`: allocate
a handle (the source allocates before validating, so a failed lookup
still consumes the handle), synthesise the include value from the
included service, and extend the owning service's end handle. -/
def add_include (st : DbState) (service_handle included_service_handle : Nat) :
    Nat × DbState :=
  let (handle, st1) := allocate_handle st
  if handle == 0 then (0, st)
  else
    match get_attribute st1.attributes included_service_handle with
    | none => (0, st1)
    | some inc_svc =>
      let base := [lo included_service_handle, hi included_service_handle,
                   lo inc_svc.end_group_handle, hi inc_svc.end_group_handle]
      let value :=
        match inc_svc.uuid with
        | .u16 v => base ++ [lo v, hi v]
        | .u128 _ => base
      let attr : Attribute :=
        { handle := handle, type := .INCLUDE, uuid := .u16 0x2802,
          permissions := ATT_PERM_READ, value := value }
      let st2 := { st1 with attributes := insertAttr st1.attributes attr }
      let st3 := update_service_end_handle st2 service_handle handle
      (handle, st3)

/-- Rightmost-owner search of `add_descriptor`: walking the service
vector from the back (`rbegin`), the first service whose current range
contains `char_handle` gets its end handle set to the new descriptor
handle; the start handle of that service is reported so the attribute
row can be updated too. -/
def descriptorOwnerUpdate : List ServiceInfo → Nat → Nat →
    List ServiceInfo × Option Nat
  | [], _, _ => ([], none)
  | s :: rest, char_handle, handle =>
    match descriptorOwnerUpdate rest char_handle handle with
    | (rest', some start) => (s :: rest', some start)
    | (rest', none) =>
      if s.start_handle ≤ char_handle && char_handle ≤ s.end_handle then
        ({ s with end_handle := handle } :: rest', some s.start_handle)
      else (s :: rest', none)

/-- Descriptor insertion, from `BLEAttributeDatabase::add_descriptor`:
allocate a handle, store the row, then find the owning service by range
(searching backwards) and widen both its `ServiceInfo` entry and its
attribute row's `end_group_handle`. -/
def add_descriptor (st : DbState) (char_handle : Nat) (uuid : UUID)
    (permissions : Nat) : Nat × DbState :=
  let (handle, st1) := allocate_handle st
  if handle == 0 then (0, st)
  else
    let attr : Attribute :=
      { handle := handle, type := .DESCRIPTOR, uuid := uuid,
        permissions := permissions }
    let st2 := { st1 with attributes := insertAttr st1.attributes attr }
    match descriptorOwnerUpdate st2.services char_handle handle with
    | (services', some start) =>
      let attributes' :=
        match get_attribute st2.attributes start with
        | some svc_attr =>
          dbReplace st2.attributes start { svc_attr with end_group_handle := handle }
        | none => st2.attributes
      (handle, { st2 with services := services', attributes := attributes' })
    | (_, none) => (handle, st2)

/-- Automatic CCCD insertion, from `BLEAttributeDatabase::add_cccd`: a
descriptor with UUID 0x2902, read+write permission, then (on success)
its value initialized to `00 00`. -/
def add_cccd (st : DbState) (char_value_handle : Nat) : Nat × DbState :=
  let (handle, st1) :=
    add_descriptor st char_value_handle (.u16 0x2902) (ATT_PERM_READ ||| ATT_PERM_WRITE)
  if handle ≠ 0 then
    match get_attribute st1.attributes handle with
    | some attr =>
      (handle, { st1 with
        attributes := dbReplace st1.attributes handle { attr with value := [0x00, 0x00] } })
    | none => (handle, st1)
  else (handle, st1)

/-- Characteristic insertion, from
`BLEAttributeDatabase::add_characteristic`: allocate the declaration and
value handles, store both rows (the declaration value is
`properties ∥ value_handle ∥ uuid`), extend the service end to the value
handle, and auto-add a CCCD (extending the end again) when properties
include notify or indicate.  Returns the declaration handle. -/
def add_characteristic (st : DbState) (service_handle : Nat) (uuid : UUID)
    (properties permissions : Nat) : Nat × DbState :=
  let (decl_handle, st1) := allocate_handle st
  let (value_handle, st2) := allocate_handle st1
  if decl_handle == 0 || value_handle == 0 then (0, st2)
  else
    let uuid_bytes := serviceValueBytes uuid
    let decl_attr : Attribute :=
      { handle := decl_handle, type := .CHARACTERISTIC, uuid := .u16 0x2803,
        permissions := ATT_PERM_READ, properties := properties,
        value_handle := value_handle,
        value := properties :: lo value_handle :: hi value_handle :: uuid_bytes }
    let value_attr : Attribute :=
      { handle := value_handle, type := .CHARACTERISTIC_VALUE, uuid := uuid,
        permissions := permissions, properties := properties }
    let st3 :=
      { st2 with attributes := insertAttr (insertAttr st2.attributes decl_attr) value_attr }
    let st4 := update_service_end_handle st3 service_handle value_handle
    let st5 :=
      if properties &&& (GATT_CHR_PROP_NOTIFY ||| GATT_CHR_PROP_INDICATE) ≠ 0 then
        let (cccd_handle, st') := add_cccd st4 value_handle
        if cccd_handle ≠ 0 then update_service_end_handle st' service_handle cccd_handle
        else st'
      else st4
    (decl_handle, st5)

/-- One database-mutating call, used to quantify over arbitrary setup
sequences. -/
inductive DbOp where
  | addPrimary (uuid : UUID)
  | addSecondary (uuid : UUID)
  | addInclude (service included : Nat)
  | addChar (service : Nat) (uuid : UUID) (properties permissions : Nat)
  | addDesc (char_handle : Nat) (uuid : UUID) (permissions : Nat)

/-- Apply one database call, discarding the returned handle. -/
def applyOp (st : DbState) : DbOp → DbState
  | .addPrimary uuid => (add_primary_service st uuid).2
  | .addSecondary uuid => (add_secondary_service st uuid).2
  | .addInclude s i => (add_include st s i).2
  | .addChar s uuid props perms => (add_characteristic st s uuid props perms).2
  | .addDesc ch uuid perms => (add_descriptor st ch uuid perms).2

/-- Run a sequence of database calls from a given state. -/
def runOps (st : DbState) (ops : List DbOp) : DbState :=
  ops.foldl applyOp st

/-! The advertising-report decoding, from src/lescan.cc. -/

/-- Modelled from the spec: the GAP AD-type constants come from
blepp/gap.h, which is not under src/.  Spec section 4.B's table gives
0x01 Flags, 0x02/0x03 incomplete/complete 16-bit UUID list, 0x06/0x07
incomplete/complete 128-bit UUID list, 0x08/0x09 shortened/complete
local name, 0xFF manufacturer-specific data. -/
def GAP_flags : Nat := 0x01

def GAP_incomplete_list_of_16_bit_UUIDs : Nat := 0x02
def GAP_complete_list_of_16_bit_UUIDs : Nat := 0x03
def GAP_incomplete_list_of_128_bit_UUIDs : Nat := 0x06
def GAP_complete_list_of_128_bit_UUIDs : Nat := 0x07
def GAP_shortened_local_name : Nat := 0x08
def GAP_complete_local_name : Nat := 0x09
def GAP_manufacturer_data : Nat := 0xFF

/-- Flags AD block, from `AdvertisingResponse::Flags`: the stored
`flag_data` is the block with its type byte removed, and the five bits
are decoded from its first byte when present. -/
structure AdvFlags where
  LE_limited_discoverable : Bool := false
  LE_general_discoverable : Bool := false
  BR_EDR_unsupported : Bool := false
  simultaneous_LE_BR_controller : Bool := false
  simultaneous_LE_BR_host : Bool := false
  flag_data : List Nat := []
deriving DecidableEq, Repr

/-- Constructor of `AdvertisingResponse::Flags` (src/lescan.cc): erase
the type field, then decode bits 0-4 of the first remaining byte. -/
def mkFlags (s : List Nat) : AdvFlags :=
  let fd := s.drop 1
  match fd with
  | [] => { flag_data := fd }
  | b :: _ =>
    { LE_limited_discoverable := b &&& 1 ≠ 0,
      LE_general_discoverable := b &&& 2 ≠ 0,
      BR_EDR_unsupported := b &&& 4 ≠ 0,
      simultaneous_LE_BR_controller := b &&& 8 ≠ 0,
      simultaneous_LE_BR_host := b &&& 16 ≠ 0,
      flag_data := fd }

/-- Decoded advertising record, from blepp/lescan.h
`struct AdvertisingResponse`.  The address keeps the six raw bytes
most-significant first (the source renders exactly these bytes as a
colon-separated hex string); the local name keeps its raw bytes paired
with the completeness flag. -/
structure AdvertisingResponse where
  address : List Nat := []
  type : Nat := 0
  rssi : Int := 0
  UUIDs : List UUID := []
  uuid_16_bit_complete : Bool := false
  uuid_128_bit_complete : Bool := false
  local_name : Option (List Nat × Bool) := none
  flags : Option AdvFlags := none
  manufacturer_specific_data : List (List Nat) := []
  unparsed_data_with_types : List (List Nat) := []
  raw_packet : List (List Nat) := []
deriving DecidableEq, Repr

/-- Failure of the packet decoding: either an `HCIParseError` carrying
the source's message string, or a `std::out_of_range` escaping the Span
accessors. -/
inductive ParseFailure where
  | hciError (why : String)
  | outOfRange
deriving DecidableEq, Repr

/-- Walk of a 16-bit UUID list AD payload (type byte already removed):
two bytes per UUID, little-endian; an odd trailing byte makes the second
`pop_front` throw. -/
def parse_uuid16_list : List Nat → Option (List UUID)
  | [] => some []
  | [_] => none
  | a :: b :: rest =>
    match parse_uuid16_list rest with
    | some us => some (UUID.u16 (a + b * 256) :: us)
    | none => none

/-- Walk of a 128-bit UUID list AD payload: 16 bytes per UUID; fewer
than 16 remaining bytes make `pop_front(16)` throw. -/
def parse_uuid128_list (l : List Nat) : Option (List UUID) :=
  if l.isEmpty then some []
  else if h : 16 ≤ l.length then
    match parse_uuid128_list (l.drop 16) with
    | some us => some (UUID.u128 (l.take 16) :: us)
    | none => none
  else none
termination_by l.length
decreasing_by
  simp only [List.length_drop]
  omega

/-- Classification of one AD block (`chunk` includes the type byte), as
in the body of the TLV loop of `parse_le_meta_event_advertisement`.
`none` models an exception inside the per-report try block. -/
def classify_ad_chunk (rsp : AdvertisingResponse) (chunk : List Nat) :
    Option AdvertisingResponse :=
  match chunk with
  | [] => none
  | type :: payload =>
    if type == GAP_flags then
      some { rsp with flags := some (mkFlags chunk) }
    else if type == GAP_incomplete_list_of_16_bit_UUIDs ||
            type == GAP_complete_list_of_16_bit_UUIDs then
      match parse_uuid16_list payload with
      | some us =>
        some { rsp with
          uuid_16_bit_complete := type == GAP_complete_list_of_16_bit_UUIDs,
          UUIDs := rsp.UUIDs ++ us }
      | none => none
    else if type == GAP_incomplete_list_of_128_bit_UUIDs ||
            type == GAP_complete_list_of_128_bit_UUIDs then
      match parse_uuid128_list payload with
      | some us =>
        some { rsp with
          uuid_128_bit_complete := type == GAP_complete_list_of_128_bit_UUIDs,
          UUIDs := rsp.UUIDs ++ us }
      | none => none
    else if type == GAP_shortened_local_name || type == GAP_complete_local_name then
      some { rsp with local_name := some (payload, type == GAP_complete_local_name) }
    else if type == GAP_manufacturer_data then
      some { rsp with
        manufacturer_specific_data := rsp.manufacturer_specific_data ++ [payload] }
    else
      some { rsp with
        unparsed_data_with_types := rsp.unparsed_data_with_types ++ [chunk] }

/-- TLV walk over one report's data region (`while(data.size() > 0)` in
`parse_le_meta_event_advertisement`): pop a length byte, pop that many
bytes as the chunk, classify.  A chunk reaching past the end — or an
empty chunk, whose `chunk[0]` access throws — fails the walk. -/
def parse_ad_structures (rsp : AdvertisingResponse) (data : List Nat) :
    Option AdvertisingResponse :=
  match data with
  | [] => some rsp
  | length :: rest =>
    if h : length ≤ rest.length then
      match classify_ad_chunk rsp (rest.take length) with
      | some rsp' => parse_ad_structures rsp' (rest.drop length)
      | none => none
    else none
termination_by data.length
decreasing_by
  simp only [List.length_drop, List.length_cons]
  omega

/-- Decoding of one advertising report entry: the fixed header fields
are read outside the per-report try block (a shortage there throws out
of the whole parse, modelled as `none`); the TLV walk runs inside it, so
its failure only drops this report (`some (none, rest)`). -/
def parse_one_report (packet : List Nat) :
    Option (Option AdvertisingResponse × List Nat) :=
  match packet with
  | event_type :: _address_type :: a0 :: a1 :: a2 :: a3 :: a4 :: a5 :: len :: rest =>
    if len ≤ rest.length then
      let data := rest.take len
      match rest.drop len with
      | [] => none
      | rssi_byte :: rest' =>
        let rsp0 : AdvertisingResponse :=
          { address := [a5, a4, a3, a2, a1, a0],
            type := event_type,
            rssi := if rssi_byte < 128 then (rssi_byte : Int) else (rssi_byte : Int) - 256,
            raw_packet := [data] }
        match parse_ad_structures rsp0 data with
        | some rsp => some (some rsp, rest')
        | none => some (none, rest')
    else none
  | _ => none

/-- Loop over `num_reports` entries (`for(int i=0; i < num_reports; i++)`
in `parse_le_meta_event_advertisement`); a dropped report contributes
nothing, a header shortage aborts the whole decode. -/
def parse_reports : Nat → List Nat → Option (List AdvertisingResponse)
  | 0, _ => some []
  | n + 1, packet =>
    match parse_one_report packet with
    | none => none
    | some (r, rest) =>
      match parse_reports n rest with
      | none => none
      | some rs =>
        match r with
        | some rsp => some (rsp :: rs)
        | none => some rs

/-- LE Advertising Report decoding, from
`parse_le_meta_event_advertisement`: pop the report count and decode
that many entries (trailing bytes are ignored). -/
def parse_le_meta_event_advertisement (packet : List Nat) :
    Except ParseFailure (List AdvertisingResponse) :=
  match packet with
  | [] => .error .outOfRange
  | num_reports :: rest =>
    match parse_reports num_reports rest with
    | some rs => .ok rs
    | none => .error .outOfRange

/-- LE Meta Event decoding, from `parse_le_meta_event`: sub-event 0x02
is decoded as an advertising report; any other sub-event returns an
empty record list without an error. -/
def parse_le_meta_event (packet : List Nat) :
    Except ParseFailure (List AdvertisingResponse) :=
  match packet with
  | [] => .error .outOfRange
  | subevent_code :: rest =>
    if subevent_code == 0x02 then parse_le_meta_event_advertisement rest
    else .ok []

/-- HCI event decoding, from `parse_event_packet`: fewer than two bytes
fail as a truncated event; the length byte must equal the remaining
payload length; only event code 0x3E proceeds. -/
def parse_event_packet (packet : List Nat) :
    Except ParseFailure (List AdvertisingResponse) :=
  match packet with
  | event_code :: length :: rest =>
    if rest.length ≠ length then .error (.hciError "Bad packet length")
    else if event_code == 0x3E then parse_le_meta_event rest
    else .error (.hciError "Unexpected HCI event packet")
  | _ => .error (.hciError "Truncated event packet")

/-- Packet entry point, from `parse_advertisement_packet`: an empty
input logs and returns no records; only HCI packet type 0x04 (Event) is
accepted. -/
def parse_advertisement_packet (p : List Nat) :
    Except ParseFailure (List AdvertisingResponse) :=
  match p with
  | [] => .ok []
  | packet_id :: rest =>
    if packet_id == 0x04 then parse_event_packet rest
    else .error (.hciError "Unknown HCI packet received")

/-! Concrete scenario states used by the claim theorems and witnesses. -/

/-- Static battery-level characteristic value row used by the Read Blob
scenario: value `64 65 66 67` (length 4), readable, no read hook. -/
def c1_attr : Attribute :=
  { handle := 2, type := .CHARACTERISTIC_VALUE, uuid := .u16 0x2A19,
    permissions := ATT_PERM_READ, value := [0x64, 0x65, 0x66, 0x67] }

/-- Server with the Read Blob scenario row and one connection at the
default MTU. -/
def c1_state : ServerState :=
  { db := [c1_attr], connections := [(1, { conn_handle := 1 })] }

/-- Server with one fresh connection at the default MTU 23. -/
def c2_state : ServerState :=
  { connections := [(1, { conn_handle := 1 })] }

/-- Battery service rows of the spec scenario: service declaration at
handle 1, characteristic declaration at 2, value at 3, CCCD at 4. -/
def c3_svc : Attribute :=
  { handle := 1, type := .PRIMARY_SERVICE, uuid := .u16 0x2800,
    permissions := ATT_PERM_READ, value := [0x0F, 0x18], end_group_handle := 4 }

/-- Characteristic declaration row of the spec scenario (read+notify). -/
def c3_decl : Attribute :=
  { handle := 2, type := .CHARACTERISTIC, uuid := .u16 0x2803,
    permissions := ATT_PERM_READ, properties := 0x12,
    value_handle := 3, value := [0x12, 0x03, 0x00, 0x19, 0x2A] }

/-- Characteristic value row of the spec scenario. -/
def c3_val : Attribute :=
  { handle := 3, type := .CHARACTERISTIC_VALUE, uuid := .u16 0x2A19,
    permissions := ATT_PERM_READ ||| ATT_PERM_WRITE, properties := 0x12,
    value := [0x64] }

/-- CCCD row of the spec scenario (readable and writable, no hooks). -/
def c3_cccd : Attribute :=
  { handle := 4, type := .DESCRIPTOR, uuid := .u16 0x2902,
    permissions := ATT_PERM_READ ||| ATT_PERM_WRITE, value := [0x00, 0x00] }

/-- Battery-service server with one connection, no subscriptions yet. -/
def c3_state : ServerState :=
  { db := [c3_svc, c3_decl, c3_val, c3_cccd],
    connections := [(1, { conn_handle := 1 })] }

/-- Server with one connection at MTU 23 already subscribed (bit 0) for
characteristic value handle 3. -/
def c4_state : ServerState :=
  { connections := [(1, { conn_handle := 1, cccd_values := [(3, 1)] })] }

/-- First Read By Type row: a 2-byte static value. -/
def c9_attr_a : Attribute :=
  { handle := 5, type := .CHARACTERISTIC_VALUE, uuid := .u16 0x2A00,
    permissions := ATT_PERM_READ, value := [0x01, 0x02] }

/-- Second Read By Type row: a 1-byte static value, shorter than the
first row's. -/
def c9_attr_b : Attribute :=
  { handle := 6, type := .CHARACTERISTIC_VALUE, uuid := .u16 0x2A00,
    permissions := ATT_PERM_READ, value := [0x09] }

/-- Third Read By Type row: a 3-byte static value, longer than the
first row's. -/
def c9_attr_c : Attribute :=
  { handle := 7, type := .CHARACTERISTIC_VALUE, uuid := .u16 0x2A00,
    permissions := ATT_PERM_READ, value := [0x07, 0x08, 0x09] }

/-- Server holding the Read By Type rows with one connection at MTU 23. -/
def c9_state : ServerState :=
  { db := [c9_attr_a, c9_attr_b, c9_attr_c],
    connections := [(1, { conn_handle := 1 })] }

/-- CCCD row whose write hook always fails with code 5 (an
application-defined ATT error). -/
def c10_cccd : Attribute :=
  { handle := 4, type := .DESCRIPTOR, uuid := .u16 0x2902,
    permissions := ATT_PERM_READ ||| ATT_PERM_WRITE, value := [0x00, 0x00],
    write_cb := some (fun _ _ => 5) }

/-- Battery-service server whose CCCD write hook fails, one connection. -/
def c10_state : ServerState :=
  { db := [c3_svc, c3_decl, c3_val, c10_cccd],
    connections := [(1, { conn_handle := 1 })] }

/-! Helper lemmas on the connection table and CCCD maps. -/

theorem find_eq_of_connUpdate (l : List (Nat × ConnectionState)) (c : Nat)
    (f : ConnectionState → ConnectionState) :
    (l.map (fun p => if p.1 == c then (p.1, f p.2) else p)).find? (fun p => p.1 == c)
      = (l.find? (fun p => p.1 == c)).map (fun p => (p.1, f p.2)) := by
  induction l with
  | nil => rfl
  | cons p rest ih =>
    by_cases hp : p.1 == c
    · simp [List.find?, hp]
    · simp only [List.map, List.find?]
      rw [if_neg (by simpa using hp)]
      simpa [hp] using ih

theorem connLookup_connUpdate (st : ServerState) (c : Nat)
    (f : ConnectionState → ConnectionState) :
    connLookup (connUpdate st c f) c = (connLookup st c).map f := by
  unfold connLookup connUpdate
  simp only [find_eq_of_connUpdate]
  cases st.connections.find? (fun p => p.1 == c) <;> rfl

theorem connLookup_with_db (st : ServerState) (d : List Attribute) (c : Nat) :
    connLookup { st with db := d } c = connLookup st c := rfl

theorem mapGetD_mapSet_self (m : List (Nat × Nat)) (k v : Nat) :
    mapGetD (mapSet m k v) k = v := by
  induction m with
  | nil => simp [mapSet, mapGetD]
  | cons p rest ih =>
    by_cases hp : p.1 == k
    · simp [mapSet, hp, mapGetD]
    · simpa [mapSet, hp, mapGetD, List.find?] using ih

theorem lo_add_hi (h : Nat) (hh : h < 65536) : lo h + 256 * hi h = h := by
  unfold lo hi
  omega

/-! Claim theorems. -/

/-- C1.  The claim: for a static readable value of length L and
0 < k < L, a Read Blob Request at offset k returns a Read Blob Response
(0x0D) carrying bytes [k..] truncated to MTU-1, and offsets k ≥ L fail
InvalidOffset.  The code instead applies the offset twice: on the
4-byte value `64 65 66 67` at offset 1 it replies with the Read
Response opcode 0x0B carrying bytes [2..] (`66 67`), and at offset 2
(still below the length 4) it already fails with InvalidOffset, because
`handle_read_blob_req` re-checks and re-drops `offset` on data that
`invoke_read_callback` has already offset.  The last two conjuncts
record the value and the bytes the claim expected for offset 1. -/
theorem C1_read_blob_code_bug :
    handle_read_blob_req c1_state 1 [ATT_OP_READ_BLOB_REQ, 0x02, 0x00, 0x01, 0x00]
      = [ATT_OP_READ_RSP, 0x66, 0x67]
    ∧ handle_read_blob_req c1_state 1 [ATT_OP_READ_BLOB_REQ, 0x02, 0x00, 0x02, 0x00]
      = [ATT_OP_ERROR, ATT_OP_READ_BLOB_REQ, 0x02, 0x00, BLE_ATT_ERR_INVALID_OFFSET]
    ∧ handle_read_blob_req c1_state 1 [ATT_OP_READ_BLOB_REQ, 0x02, 0x00, 0x04, 0x00]
      = [ATT_OP_ERROR, ATT_OP_READ_BLOB_REQ, 0x02, 0x00, BLE_ATT_ERR_INVALID_OFFSET]
    ∧ c1_attr.value.length = 4
    ∧ (c1_attr.value.drop 1).take (get_mtu c1_state 1 - 1) = [0x65, 0x66, 0x67] := by
  decide

/-- C2 counterexample.  The claim says a client MTU below 23 is clamped
to 23 on the server side; processing an MTU Exchange Request with
client MTU 5 stores 5 — below 23 — as the connection's MTU. -/
theorem C2_counterexample :
    get_mtu (handle_mtu_exchange_req c2_state 1 [0x02, 0x05, 0x00]).1 1 = 5
    ∧ 5 < 23 := by
  decide

/-- C2 amended.  For every well-formed MTU Exchange Request the server
stores `min(client_mtu, 517)` with no lower clamp at 23, and replies
with opcode 0x03 carrying the server maximum 517 (bytes `03 05 02`). -/
theorem C2_mtu_negotiation_amended
    (st : ServerState) (conn b1 b2 : Nat) (rest : List Nat) (cs : ConnectionState)
    (hconn : connLookup st conn = some cs) :
    (handle_mtu_exchange_req st conn (0x02 :: b1 :: b2 :: rest)).2 = [0x03, 0x05, 0x02]
    ∧ get_mtu (handle_mtu_exchange_req st conn (0x02 :: b1 :: b2 :: rest)).1 conn
        = min (b1 + 256 * b2) 517 := by
  unfold handle_mtu_exchange_req
  simp only [List.length_cons, show ¬((rest.length + 1 + 1 + 1) < 3) by omega, if_false]
  refine ⟨rfl, ?_⟩
  unfold get_mtu
  rw [connLookup_connUpdate, hconn]
  rfl

/-- C2 witness: the amended theorem at the concrete connection of
`c2_state` and client MTU 5. -/
theorem C2_mtu_negotiation_amended_witness :
    (handle_mtu_exchange_req c2_state 1 [0x02, 0x05, 0x00]).2 = [0x03, 0x05, 0x02]
    ∧ get_mtu (handle_mtu_exchange_req c2_state 1 [0x02, 0x05, 0x00]).1 1
        = min (5 + 256 * 0) 517 := by
  exact C2_mtu_negotiation_amended c2_state 1 5 0 [] { conn_handle := 1 } rfl

/-- C4 counterexample.  The claim says a notification payload is
truncated to MTU-3 so the PDU never exceeds the MTU; on a connection at
MTU 23 with the subscription bit set, notifying 21 bytes submits a
24-byte PDU, exceeding the MTU. -/
theorem C4_counterexample :
    get_mtu c4_state 1 = 23
    ∧ ∃ pdu, notify c4_state 1 3 (List.replicate 21 0x41) = some pdu
        ∧ pdu.length = 24 ∧ pdu.length > get_mtu c4_state 1 := by
  refine ⟨by decide, [0x1B, 0x03, 0x00] ++ List.replicate 21 0x41, by decide, by decide, by decide⟩

/-- C4 amended.  When the subscription check passes, `notify` submits
`0x1B ∥ handle ∥ data` with the payload NOT truncated: the PDU length is
always 3 plus the full payload length, regardless of the MTU. -/
theorem C4_notify_no_truncation_amended
    (st : ServerState) (c h : Nat) (data : List Nat) (cs : ConnectionState)
    (hconn : connLookup st c = some cs)
    (hsub : mapGetD cs.cccd_values h &&& 0x0001 ≠ 0) :
    notify st c h data = some ([ATT_OP_HANDLE_NOTIFY, lo h, hi h] ++ data)
    ∧ ∀ pdu, notify st c h data = some pdu → pdu.length = 3 + data.length := by
  have hm : mapGetD cs.cccd_values h % 2 = 1 := by
    rw [Nat.and_one_is_mod] at hsub
    omega
  have hfst : notify st c h data
      = some ([ATT_OP_HANDLE_NOTIFY, lo h, hi h] ++ data) := by
    unfold notify
    rw [hconn]
    simp [Nat.and_one_is_mod, hm]
  refine ⟨hfst, fun pdu hpdu => ?_⟩
  rw [hfst] at hpdu
  cases hpdu
  simp only [List.length_append, List.length_cons, List.length_nil]
  try omega

/-- C4 witness: the amended theorem at the subscribed connection of
`c4_state`, handle 3, payload `5A`. -/
theorem C4_notify_no_truncation_amended_witness :
    notify c4_state 1 3 [0x5A] = some ([0x1B, lo 3, hi 3] ++ [0x5A])
    ∧ ∀ pdu, notify c4_state 1 3 [0x5A] = some pdu → pdu.length = 3 + 1 := by
  exact C4_notify_no_truncation_amended c4_state 1 3 [0x5A]
    { conn_handle := 1, cccd_values := [(3, 1)] } rfl (by decide)

/-- C5 counterexample.  The claim says a sub-event code other than 0x02
fails with MalformedPacket; the packet `04 3E 01 03` (HCI event, code
0x3E, parameter length 1 matching, sub-event 0x03) instead parses
successfully to an empty record list, with no error raised. -/
theorem C5_counterexample :
    parse_advertisement_packet [0x04, 0x3E, 0x01, 0x03] = Except.ok []
    ∧ (0x03 : Nat) ≠ 0x02 := by
  exact ⟨rfl, by decide⟩

/-- C5 amended.  For an HCI Event packet `04 ∥ event_code ∥ len ∥ body`:
a parameter-length mismatch, or an event code other than 0x3E, fails
with an HCIParseError (the spec's MalformedPacket); but a sub-event
other than 0x02 parses successfully to an empty record list without an
error. -/
theorem C5_event_header_validation_amended
    (event_code len : Nat) (body : List Nat) :
    (body.length ≠ len →
      ∃ why, parse_advertisement_packet (0x04 :: event_code :: len :: body)
        = Except.error (.hciError why))
    ∧ (body.length = len → event_code ≠ 0x3E →
      ∃ why, parse_advertisement_packet (0x04 :: event_code :: len :: body)
        = Except.error (.hciError why))
    ∧ (∀ sub tail, body = sub :: tail → body.length = len → sub ≠ 0x02 →
        event_code = 0x3E →
        parse_advertisement_packet (0x04 :: event_code :: len :: body)
          = Except.ok []) := by
  refine ⟨?_, ?_, ?_⟩
  · intro hlen
    refine ⟨"Bad packet length", ?_⟩
    simp [parse_advertisement_packet, parse_event_packet, hlen]
  · intro hlen hev
    refine ⟨"Unexpected HCI event packet", ?_⟩
    simp [parse_advertisement_packet, parse_event_packet, hlen, hev]
  · intro sub tail hbody hlen hsub hev
    subst hbody
    subst hev
    simp [parse_advertisement_packet, parse_event_packet, hlen,
      parse_le_meta_event, hsub]

/-- C5 witness: the amended theorem on the packet `04 13 00` (event
code 0x13, not an LE Meta Event), which fails with an HCIParseError. -/
theorem C5_event_header_validation_amended_witness :
    ∃ why, parse_advertisement_packet [0x04, 0x13, 0x00]
      = Except.error (.hciError why) :=
  (C5_event_header_validation_amended 0x13 0 []).2.1 rfl (by decide)

/-- Modelled from the spec: the section 6 flag-word table's permission
column, with the 0x0800 ReadAuthor and 0x4000 WriteAuthor rows omitted
as the C7 amendment requires (the code ignores those two bits). -/
def specPermissionsTable (flags : Nat) : Nat :=
  (if flags &&& 0x0002 ≠ 0 then 0x01 else 0)
  + (if flags &&& (0x0008 ||| 0x0004) ≠ 0 then 0x02 else 0)
  + (if flags &&& 0x0200 ≠ 0 then 0x04 else 0)
  + (if flags &&& 0x1000 ≠ 0 then 0x08 else 0)
  + (if flags &&& 0x0400 ≠ 0 then 0x10 else 0)
  + (if flags &&& 0x2000 ≠ 0 then 0x20 else 0)

/-- Modelled from the spec: the section 6 flag-word table's property
column (which the code matches in full). -/
def specPropertiesTable (flags : Nat) : Nat :=
  (if flags &&& 0x0001 ≠ 0 then 0x01 else 0)
  + (if flags &&& 0x0002 ≠ 0 then 0x02 else 0)
  + (if flags &&& 0x0004 ≠ 0 then 0x04 else 0)
  + (if flags &&& 0x0008 ≠ 0 then 0x08 else 0)
  + (if flags &&& 0x0010 ≠ 0 then 0x10 else 0)
  + (if flags &&& 0x0020 ≠ 0 then 0x20 else 0)
  + (if flags &&& 0x0040 ≠ 0 then 0x40 else 0)

/-- C7 counterexample.  The claim says flag bit 0x0800 yields the
ReadAuthorized permission (0x40) and 0x4000 yields WriteAuthorized
(0x80); the code derives no permission at all from either bit. -/
theorem C7_counterexample :
    flags_to_permissions 0x0800 &&& ATT_PERM_READ_AUTHOR = 0
    ∧ flags_to_permissions 0x4000 &&& ATT_PERM_WRITE_AUTHOR = 0
    ∧ flags_to_permissions 0x0800 = 0
    ∧ flags_to_permissions 0x4000 = 0 := by
  decide

set_option maxHeartbeats 4000000 in
/-- C7 amended.  The derived (properties, permissions) follow the
section 6 table except for its ReadAuthor/WriteAuthor rows: those two
flag bits are ignored, and the derived permissions never contain the
ReadAuthorized (0x40) or WriteAuthorized (0x80) bits. -/
theorem C7_flags_mapping_amended (flags : Nat) :
    flags_to_properties flags = specPropertiesTable flags
    ∧ flags_to_permissions flags = specPermissionsTable flags
    ∧ flags_to_permissions flags &&& (ATT_PERM_READ_AUTHOR ||| ATT_PERM_WRITE_AUTHOR) = 0 := by
  refine ⟨?_, ?_, ?_⟩
  · unfold flags_to_properties specPropertiesTable
      GATT_CHR_F_BROADCAST GATT_CHR_F_READ GATT_CHR_F_WRITE_NO_RSP GATT_CHR_F_WRITE
      GATT_CHR_F_NOTIFY GATT_CHR_F_INDICATE GATT_CHR_F_AUTH_SIGN_WRITE
      GATT_CHR_PROP_BROADCAST GATT_CHR_PROP_READ GATT_CHR_PROP_WRITE_NO_RSP
      GATT_CHR_PROP_WRITE GATT_CHR_PROP_NOTIFY GATT_CHR_PROP_INDICATE
      GATT_CHR_PROP_AUTH_WRITE
    split_ifs <;> rfl
  · unfold flags_to_permissions specPermissionsTable
      GATT_CHR_F_READ GATT_CHR_F_WRITE GATT_CHR_F_WRITE_NO_RSP GATT_CHR_F_READ_ENC
      GATT_CHR_F_WRITE_ENC GATT_CHR_F_READ_AUTHEN GATT_CHR_F_WRITE_AUTHEN
      ATT_PERM_READ ATT_PERM_WRITE ATT_PERM_READ_ENCRYPT ATT_PERM_WRITE_ENCRYPT
      ATT_PERM_READ_AUTHEN ATT_PERM_WRITE_AUTHEN
    split_ifs <;> rfl
  · unfold flags_to_permissions
      GATT_CHR_F_READ GATT_CHR_F_WRITE GATT_CHR_F_WRITE_NO_RSP GATT_CHR_F_READ_ENC
      GATT_CHR_F_WRITE_ENC GATT_CHR_F_READ_AUTHEN GATT_CHR_F_WRITE_AUTHEN
      ATT_PERM_READ ATT_PERM_WRITE ATT_PERM_READ_ENCRYPT ATT_PERM_WRITE_ENCRYPT
      ATT_PERM_READ_AUTHEN ATT_PERM_WRITE_AUTHEN ATT_PERM_READ_AUTHOR ATT_PERM_WRITE_AUTHOR
    split_ifs <;> rfl

theorem uuidEq_u16_iff (u v : Nat) (hu : u < 65536) (hv : v < 65536) :
    uuidEq (UUID.u16 u) (UUID.u16 v) = true ↔ u = v := by
  unfold uuidEq UUID.widen lo hi
  simp only [beq_iff_eq, List.cons.injEq, and_true, true_and]
  omega

/-- C6.  Every Read By Group Type Request carrying a 16-bit group type
other than 0x2800 is answered with the 5-byte Error Response
`01 10 start_lo start_hi 10`: request opcode echoed, handle field set
to the request's start handle, error code UnsupportedGroupType. -/
theorem C6_unsupported_group_type
    (st : ServerState) (conn s0 s1 e0 e1 u0 u1 : Nat)
    (hs0 : s0 < 256) (hs1 : s1 < 256) (hu0 : u0 < 256) (hu1 : u1 < 256)
    (hu : u0 + 256 * u1 ≠ 0x2800) :
    handle_read_by_group_type_req st conn
        [ATT_OP_READ_BY_GROUP_TYPE_REQ, s0, s1, e0, e1, u0, u1]
      = [ATT_OP_ERROR, ATT_OP_READ_BY_GROUP_TYPE_REQ, s0, s1,
         BLE_ATT_ERR_UNSUPPORTED_GROUP_TYPE] := by
  have hne : uuidEq (UUID.u16 (u0 + 256 * u1)) (UUID.u16 0x2800) = false := by
    cases hcase : uuidEq (UUID.u16 (u0 + 256 * u1)) (UUID.u16 0x2800) with
    | false => rfl
    | true =>
      exact absurd ((uuidEq_u16_iff (u0 + 256 * u1) 0x2800 (by omega) (by omega)).mp hcase) hu
  unfold handle_read_by_group_type_req pduU16
  simp only [List.length_cons, List.length_nil, List.getD_cons_succ, List.getD_cons_zero]
  norm_num [hne, send_error_response, ATT_OP_ERROR, ATT_OP_READ_BY_GROUP_TYPE_REQ,
    BLE_ATT_ERR_UNSUPPORTED_GROUP_TYPE, lo, hi]
  omega

/-- C6 witness: the spec scenario request `10 01 00 FF FF 03 28`
(group type 0x2803, the Characteristic declaration UUID) against the
battery-service state yields `01 10 01 00 10`. -/
theorem C6_unsupported_group_type_witness :
    handle_read_by_group_type_req c3_state 1
        [0x10, 0x01, 0x00, 0xFF, 0xFF, 0x03, 0x28]
      = [0x01, 0x10, 0x01, 0x00, 0x10] := by
  have h := C6_unsupported_group_type c3_state 1 0x01 0x00 0xFF 0xFF 0x03 0x28
    (by decide) (by decide) (by decide) (by decide) (by decide)
  simpa using h

/-- Behaviour of `handle_write_req` on a 2-byte write to a writable CCCD
row of a live connection: the subscription map is updated first (keyed
by the CCCD handle minus one), then the write hook decides between the
0x13 Write Response and an Error Response carrying its code (the static
value is replaced when no hook exists).  Shared backbone of the C3 and
C10 theorems. -/
theorem handle_write_req_cccd_spec
    (st : ServerState) (c h v0 v1 : Nat) (cs : ConnectionState) (attr : Attribute)
    (hconn : connLookup st c = some cs)
    (hattr : get_attribute st.db h = some attr)
    (huuid : attr.uuid = .u16 0x2902)
    (hperm : attr.permissions &&& ATT_PERM_WRITE ≠ 0)
    (hh1 : 1 ≤ h) (hh2 : h < 65536) :
    handle_write_req st c [ATT_OP_WRITE_REQ, lo h, hi h, v0, v1]
      = (let st1 := connUpdate st c (fun cs0 =>
           { cs0 with cccd_values := mapSet cs0.cccd_values (h - 1) (v0 + 256 * v1) })
         match attr.write_cb with
         | some cb =>
           if cb c [v0, v1] ≠ 0 then
             (st1, send_error_response ATT_OP_WRITE_REQ h (cb c [v0, v1]))
           else ({ st1 with db := dbReplace st1.db h attr }, [ATT_OP_WRITE_RSP])
         | none =>
           ({ st1 with db := dbReplace st1.db h { attr with value := [v0, v1] } },
            [ATT_OP_WRITE_RSP])) := by
  have hH : pduU16 [ATT_OP_WRITE_REQ, lo h, hi h, v0, v1] 1 = h := by
    simpa [pduU16] using lo_add_hi h hh2
  have hperm' : (attr.permissions &&& ATT_PERM_WRITE == 0) = false := by
    simpa using hperm
  have hz : (h == 0) = false := by
    simp
    omega
  unfold handle_write_req
  rw [if_neg (show ¬([ATT_OP_WRITE_REQ, lo h, hi h, v0, v1].length < 3) by simp)]
  simp only [hH, hattr, hperm', Bool.false_eq_true, if_false]
  have hdrop : [ATT_OP_WRITE_REQ, lo h, hi h, v0, v1].drop 3 = [v0, v1] := rfl
  simp only [hdrop, huuid]
  have huu : (uuidEq (UUID.u16 0x2902) (UUID.u16 0x2902)
      && ([v0, v1].length == 2)) = true := rfl
  simp only [huu, if_true]
  unfold handle_cccd_write
  rw [hconn]
  simp only [hz, Bool.false_eq_true, if_false,
    List.getD_cons_zero, List.getD_cons_succ]
  unfold invoke_write_callback
  cases hcb : attr.write_cb with
  | none => simp [huuid]
  | some cb =>
    by_cases hres : cb c [v0, v1] ≠ 0
    · simp [hres, huuid]
    · simp [hres, huuid]

/-- C3.  Writing the 2-byte value `01 00` to a hook-less writable CCCD
at handle h on a live connection answers 0x13, records subscription
bits 0x0001 for the characteristic value handle h-1, and a subsequent
notify on h-1 submits `0x1B ∥ (h-1) ∥ bytes`; after writing `00 00`
instead, notify fails (the C++ -1, the spec's NotSubscribed). -/
theorem C3_cccd_subscribe_notify
    (st : ServerState) (c h : Nat) (bytes : List Nat)
    (cs : ConnectionState) (attr : Attribute)
    (hconn : connLookup st c = some cs)
    (hattr : get_attribute st.db h = some attr)
    (huuid : attr.uuid = .u16 0x2902)
    (hperm : attr.permissions &&& ATT_PERM_WRITE ≠ 0)
    (hcb : attr.write_cb = none)
    (hh1 : 1 ≤ h) (hh2 : h < 65536) :
    (handle_write_req st c [ATT_OP_WRITE_REQ, lo h, hi h, 0x01, 0x00]).2 = [ATT_OP_WRITE_RSP]
    ∧ (∃ cs', connLookup (handle_write_req st c [ATT_OP_WRITE_REQ, lo h, hi h, 0x01, 0x00]).1 c
        = some cs' ∧ mapGetD cs'.cccd_values (h - 1) = 0x0001)
    ∧ notify (handle_write_req st c [ATT_OP_WRITE_REQ, lo h, hi h, 0x01, 0x00]).1 c (h - 1) bytes
        = some ([ATT_OP_HANDLE_NOTIFY, lo (h - 1), hi (h - 1)] ++ bytes)
    ∧ notify (handle_write_req st c [ATT_OP_WRITE_REQ, lo h, hi h, 0x00, 0x00]).1 c (h - 1) bytes
        = none := by
  have hrun := fun v0 v1 =>
    handle_write_req_cccd_spec st c h v0 v1 cs attr hconn hattr huuid hperm hh1 hh2
  have hstate : ∀ v0 v1 : Nat,
      connLookup (handle_write_req st c [ATT_OP_WRITE_REQ, lo h, hi h, v0, v1]).1 c
        = some { cs with cccd_values := mapSet cs.cccd_values (h - 1) (v0 + 256 * v1) } := by
    intro v0 v1
    rw [hrun v0 v1]
    simp only [hcb]
    rw [connLookup_with_db, connLookup_connUpdate, hconn]
    rfl
  refine ⟨?_, ⟨_, hstate 0x01 0x00, ?_⟩, ?_, ?_⟩
  · rw [hrun 0x01 0x00]
    simp only [hcb]
  · exact mapGetD_mapSet_self _ _ _
  · unfold notify
    rw [hstate 0x01 0x00]
    simp only [mapGetD_mapSet_self]
    rfl
  · unfold notify
    rw [hstate 0x00 0x00]
    simp only [mapGetD_mapSet_self]
    rfl

/-- C3 witness: the spec scenario on the battery service — request
`12 04 00 01 00` answers `13`, `notify(conn, 3, [5A])` submits
`1B 03 00 5A`, and after `12 04 00 00 00` the notify fails. -/
theorem C3_cccd_subscribe_notify_witness :
    (handle_write_req c3_state 1 [0x12, 0x04, 0x00, 0x01, 0x00]).2 = [0x13]
    ∧ (∃ cs', connLookup (handle_write_req c3_state 1 [0x12, 0x04, 0x00, 0x01, 0x00]).1 1
        = some cs' ∧ mapGetD cs'.cccd_values 3 = 1)
    ∧ notify (handle_write_req c3_state 1 [0x12, 0x04, 0x00, 0x01, 0x00]).1 1 3 [0x5A]
        = some [0x1B, 0x03, 0x00, 0x5A]
    ∧ notify (handle_write_req c3_state 1 [0x12, 0x04, 0x00, 0x00, 0x00]).1 1 3 [0x5A]
        = none := by
  have h := C3_cccd_subscribe_notify c3_state 1 4 [0x5A] { conn_handle := 1 } c3_cccd
    rfl rfl rfl (by decide) rfl (by decide) (by decide)
  simpa using h

/-- C10.  When a Write Request lands on a writable CCCD row whose write
hook fails with a non-zero code, the server sends the Error Response
carrying that code — yet the per-connection subscription map already
holds the new CCCD bits for handle h-1: the update precedes the hook
and is not rolled back. -/
theorem C10_cccd_write_not_rolled_back
    (st : ServerState) (c h v0 v1 e : Nat)
    (cs : ConnectionState) (attr : Attribute) (f : Nat → List Nat → Nat)
    (hconn : connLookup st c = some cs)
    (hattr : get_attribute st.db h = some attr)
    (huuid : attr.uuid = .u16 0x2902)
    (hperm : attr.permissions &&& ATT_PERM_WRITE ≠ 0)
    (hcb : attr.write_cb = some f)
    (hf : f c [v0, v1] = e) (he : e ≠ 0)
    (hh1 : 1 ≤ h) (hh2 : h < 65536) :
    (handle_write_req st c [ATT_OP_WRITE_REQ, lo h, hi h, v0, v1]).2
      = send_error_response ATT_OP_WRITE_REQ h e
    ∧ ∃ cs', connLookup (handle_write_req st c [ATT_OP_WRITE_REQ, lo h, hi h, v0, v1]).1 c
        = some cs' ∧ mapGetD cs'.cccd_values (h - 1) = v0 + 256 * v1 := by
  have hrun := handle_write_req_cccd_spec st c h v0 v1 cs attr hconn hattr huuid hperm hh1 hh2
  rw [hrun]
  simp only [hcb, hf, if_pos he]
  refine ⟨trivial,
    { cs with cccd_values := mapSet cs.cccd_values (h - 1) (v0 + 256 * v1) },
    ?_, mapGetD_mapSet_self _ _ _⟩
  rw [connLookup_connUpdate, hconn]
  rfl

/-- C10 witness: on the battery service whose CCCD hook always fails
with code 5, the request `12 04 00 01 00` is answered by the Error
Response `01 12 04 00 05` while the subscription for handle 3 is
already set to 1. -/
theorem C10_cccd_write_not_rolled_back_witness :
    (handle_write_req c10_state 1 [0x12, 0x04, 0x00, 0x01, 0x00]).2
      = [0x01, 0x12, 0x04, 0x00, 0x05]
    ∧ ∃ cs', connLookup (handle_write_req c10_state 1 [0x12, 0x04, 0x00, 0x01, 0x00]).1 1
        = some cs' ∧ mapGetD cs'.cccd_values 3 = 1 := by
  have h := C10_cccd_write_not_rolled_back c10_state 1 4 0x01 0x00 5
    { conn_handle := 1 } c10_cccd (fun _ _ => 5)
    rfl rfl rfl (by decide) rfl rfl (by decide) (by decide) (by decide)
  simpa using h

/-- Record lengths emitted by `read_by_type_loop`: when every attribute
serves at least `pair_len - 2` bytes (and `2 ≤ pair_len ≤ 255`), every
emitted record is exactly `pair_len` bytes long. -/
theorem read_by_type_loop_length
    (conn max_data pair_len : Nat) (hpl : 2 ≤ pair_len) (hpl2 : pair_len ≤ 255) :
    ∀ (attrs : List Attribute) (acc : Nat),
      (∀ a ∈ attrs, pair_len - 2 ≤ (read_attr_value a conn).length) →
      ∀ r ∈ read_by_type_loop conn max_data pair_len attrs acc, r.length = pair_len := by
  intro attrs
  induction attrs with
  | nil =>
    intro acc _ r hr
    simp [read_by_type_loop] at hr
  | cons a rest ih =>
    intro acc hall r hr
    unfold read_by_type_loop at hr
    by_cases hover : acc + pair_len > max_data
    · rw [if_pos hover] at hr
      simp at hr
    · rw [if_neg hover] at hr
      have hcap : (2 ^ 64 + pair_len - 2) % 2 ^ 64 = pair_len - 2 := by omega
      rcases List.mem_cons.mp hr with heq | hmem
      · subst heq
        have hlen := hall a (List.mem_cons_self a rest)
        simp only [List.length_append, List.length_cons, List.length_nil,
          List.length_take, hcap]
        omega
      · exact ih (acc + _) (fun a' ha' => hall a' (List.mem_cons_of_mem _ ha')) r hmem

/-- C9 counterexample.  The claim says all handle+value records in a
Read By Type Response have the announced pair length; with a first
match of length 2 (pair length 4) and a second match of length 1, the
second record is only 3 bytes long. -/
theorem C9_counterexample :
    send_read_by_type_rsp c9_state 1 [c9_attr_a, c9_attr_b]
      = [0x09, 0x04, 0x05, 0x00, 0x01, 0x02, 0x06, 0x00, 0x09]
    ∧ read_by_type_loop 1 (get_mtu c9_state 1 - 2) 0x04 [c9_attr_a, c9_attr_b] 2
        = [[0x05, 0x00, 0x01, 0x02], [0x06, 0x00, 0x09]]
    ∧ ([0x06, 0x00, 0x09] : List Nat).length ≠ 0x04 := by
  decide

/-- C9 amended.  The response announces pair length
2 + len(first value); values longer than the first match's are
truncated to it, and records all have the announced length provided
every matched value is at least as long as the first (shorter values
yield shorter records). -/
theorem C9_read_by_type_records_amended
    (st : ServerState) (conn : Nat) (first : Attribute) (rest : List Attribute)
    (hfl : (read_attr_value first conn).length ≤ 253)
    (hmin : ∀ a ∈ first :: rest,
      (read_attr_value first conn).length ≤ (read_attr_value a conn).length) :
    send_read_by_type_rsp st conn (first :: rest)
      = [ATT_OP_READ_BY_TYPE_RSP, 2 + (read_attr_value first conn).length]
        ++ (read_by_type_loop conn (get_mtu st conn - 2)
              (2 + (read_attr_value first conn).length) (first :: rest) 2).flatten
    ∧ ∀ r ∈ read_by_type_loop conn (get_mtu st conn - 2)
          (2 + (read_attr_value first conn).length) (first :: rest) 2,
        r.length = 2 + (read_attr_value first conn).length := by
  have hmod : (2 + (read_attr_value first conn).length) % 256
      = 2 + (read_attr_value first conn).length := Nat.mod_eq_of_lt (by omega)
  constructor
  · simp only [send_read_by_type_rsp]
    rw [hmod]
  · exact read_by_type_loop_length conn (get_mtu st conn - 2) _
      (by omega) (by omega) (first :: rest) 2
      (fun a ha => by have := hmin a ha; omega)

/-- C9 witness: the amended theorem on rows of lengths 2 and 3 — the
response is `09 04 05 00 01 02 07 00 07 08`, the 3-byte value truncated
to 2 bytes so both records have the announced length 4. -/
theorem C9_read_by_type_records_amended_witness :
    send_read_by_type_rsp c9_state 1 [c9_attr_a, c9_attr_c]
      = [0x09, 2 + (read_attr_value c9_attr_a 1).length]
        ++ (read_by_type_loop 1 (get_mtu c9_state 1 - 2)
              (2 + (read_attr_value c9_attr_a 1).length) [c9_attr_a, c9_attr_c] 2).flatten
    ∧ send_read_by_type_rsp c9_state 1 [c9_attr_a, c9_attr_c]
      = [0x09, 0x04, 0x05, 0x00, 0x01, 0x02, 0x07, 0x00, 0x07, 0x08] :=
  ⟨(C9_read_by_type_records_amended c9_state 1 c9_attr_a [c9_attr_c]
      (by decide) (by decide)).1, by decide⟩

/-! Database invariant development for the end_group_handle claim. -/

/-- Database well-formedness maintained by every `add_*` call: the
allocation counter starts at 1, all stored handles are below it and
pairwise distinct, service start handles are pairwise distinct, and for
every tracked service range the service attribute row exists and its
`end_group_handle` is 0xFFFF while the range is still `[start, start]`
(no member added yet) and equals the range's end handle afterwards. -/
def DbInv (st : DbState) : Prop :=
  1 ≤ st.next_handle
  ∧ (∀ a ∈ st.attributes, a.handle < st.next_handle)
  ∧ (st.attributes.map (fun a => a.handle)).Nodup
  ∧ (st.services.map (fun s => s.start_handle)).Nodup
  ∧ ∀ s ∈ st.services, s.start_handle ≤ s.end_handle ∧ s.end_handle < st.next_handle ∧
      ∃ a, get_attribute st.attributes s.start_handle = some a ∧
        a.end_group_handle = (if s.end_handle = s.start_handle then 65535 else s.end_handle)

theorem get_attribute_handle (db : List Attribute) (h : Nat) (a : Attribute)
    (hget : get_attribute db h = some a) : a.handle = h := by
  have := List.find?_some hget
  simpa using this

theorem mem_of_get_attribute (db : List Attribute) (h : Nat) (a : Attribute)
    (hget : get_attribute db h = some a) : a ∈ db :=
  List.mem_of_find?_eq_some hget

theorem mem_insertAttr {l : List Attribute} {a x : Attribute}
    (hx : x ∈ insertAttr l a) : x ∈ l ∨ x = a := by
  induction l with
  | nil =>
    simp [insertAttr] at hx
    exact Or.inr hx
  | cons y rest ih =>
    unfold insertAttr at hx
    by_cases h1 : a.handle < y.handle
    · rw [if_pos h1] at hx
      rcases List.mem_cons.mp hx with h | h
      · exact Or.inr h
      · exact Or.inl h
    · rw [if_neg h1] at hx
      by_cases h2 : a.handle == y.handle
      · rw [if_pos h2] at hx
        rcases List.mem_cons.mp hx with h | h
        · exact Or.inr h
        · exact Or.inl (List.mem_cons_of_mem y h)
      · rw [if_neg h2] at hx
        rcases List.mem_cons.mp hx with h | h
        · exact Or.inl (by simp [h])
        · rcases ih h with hh | hh
          · exact Or.inl (List.mem_cons_of_mem y hh)
          · exact Or.inr hh

theorem get_insertAttr_ne {l : List Attribute} {a : Attribute} {h : Nat}
    (hne : h ≠ a.handle) :
    get_attribute (insertAttr l a) h = get_attribute l h := by
  have hfa : (a.handle == h) = false := by
    simp
    omega
  induction l with
  | nil => simp [insertAttr, get_attribute, List.find?, hfa]
  | cons y rest ih =>
    unfold insertAttr
    by_cases h1 : a.handle < y.handle
    · rw [if_pos h1]
      simp only [get_attribute, List.find?, hfa]
    · rw [if_neg h1]
      by_cases h2 : a.handle == y.handle
      · rw [if_pos h2]
        have hyv : a.handle = y.handle := by simpa using h2
        have hy : (y.handle == h) = false := by
          simp
          omega
        simp only [get_attribute, List.find?, hfa, hy]
      · rw [if_neg h2]
        by_cases hy : y.handle == h
        · simp only [get_attribute, List.find?, hy]
        · simp only [get_attribute, List.find?, hy] at ih ⊢
          exact ih

theorem get_insertAttr_self {l : List Attribute} {a : Attribute} :
    get_attribute (insertAttr l a) a.handle = some a := by
  induction l with
  | nil => simp [insertAttr, get_attribute, List.find?]
  | cons y rest ih =>
    unfold insertAttr
    by_cases h1 : a.handle < y.handle
    · rw [if_pos h1]
      simp [get_attribute, List.find?]
    · rw [if_neg h1]
      by_cases h2 : a.handle == y.handle
      · rw [if_pos h2]
        simp [get_attribute, List.find?]
      · rw [if_neg h2]
        have hy : (y.handle == a.handle) = false := by
          simp only [beq_iff_eq] at h2 ⊢
          simp
          omega
        simp only [get_attribute, List.find?, hy] at ih ⊢
        exact ih

theorem insertAttr_perm {l : List Attribute} {a : Attribute}
    (hfresh : ∀ x ∈ l, x.handle ≠ a.handle) :
    List.Perm (insertAttr l a) (a :: l) := by
  induction l with
  | nil => exact List.Perm.refl _
  | cons y rest ih =>
    unfold insertAttr
    by_cases h1 : a.handle < y.handle
    · rw [if_pos h1]
    · rw [if_neg h1]
      by_cases h2 : a.handle == y.handle
      · have : a.handle = y.handle := by simpa using h2
        exact absurd this.symm (hfresh y (List.mem_cons_self y rest))
      · rw [if_neg h2]
        have hp := ih (fun x hx => hfresh x (List.mem_cons_of_mem y hx))
        exact (List.Perm.cons y hp).trans (List.Perm.swap a y rest)

theorem nodup_insertAttr {l : List Attribute} {a : Attribute}
    (hfresh : ∀ x ∈ l, x.handle ≠ a.handle)
    (hnd : (l.map (fun a => a.handle)).Nodup) :
    ((insertAttr l a).map (fun a => a.handle)).Nodup := by
  have hperm := (insertAttr_perm hfresh).map (fun a : Attribute => a.handle)
  rw [List.Perm.nodup_iff hperm]
  refine List.nodup_cons.mpr ⟨?_, hnd⟩
  intro hmem
  obtain ⟨x, hx, heq⟩ := List.mem_map.mp hmem
  exact hfresh x hx heq

theorem mem_dbReplace {l : List Attribute} {h : Nat} {a' x : Attribute}
    (hx : x ∈ dbReplace l h a') : x ∈ l ∨ x = a' := by
  induction l with
  | nil =>
    simp [dbReplace] at hx
  | cons y rest ih =>
    unfold dbReplace at hx
    by_cases hy : y.handle == h
    · rw [if_pos hy] at hx
      rcases List.mem_cons.mp hx with hh | hh
      · exact Or.inr hh
      · exact Or.inl (List.mem_cons_of_mem y hh)
    · rw [if_neg hy] at hx
      rcases List.mem_cons.mp hx with hh | hh
      · refine Or.inl ?_
        simp [hh]
      · rcases ih hh with h3 | h3
        · exact Or.inl (List.mem_cons_of_mem y h3)
        · exact Or.inr h3

theorem map_handle_dbReplace {l : List Attribute} {h : Nat} {a' : Attribute}
    (ha : a'.handle = h) :
    (dbReplace l h a').map (fun a => a.handle) = l.map (fun a => a.handle) := by
  induction l with
  | nil => rfl
  | cons y rest ih =>
    unfold dbReplace
    by_cases hy : y.handle == h
    · have hyv : y.handle = h := by simpa using hy
      rw [if_pos hy]
      simp only [List.map]
      rw [ha, hyv]
    · rw [if_neg hy]
      simp only [List.map]
      rw [ih]

theorem get_dbReplace_ne {l : List Attribute} {h : Nat} {a' : Attribute} {h2 : Nat}
    (ha : a'.handle = h) (hne : h2 ≠ h) :
    get_attribute (dbReplace l h a') h2 = get_attribute l h2 := by
  have hfa : (a'.handle == h2) = false := by
    simp
    omega
  induction l with
  | nil => rfl
  | cons y rest ih =>
    unfold dbReplace
    by_cases hy : y.handle == h
    · rw [if_pos hy]
      have hyv : y.handle = h := by simpa using hy
      have hyh : (y.handle == h2) = false := by
        simp
        omega
      simp only [get_attribute, List.find?, hfa, hyh]
    · rw [if_neg hy]
      by_cases hy2 : y.handle == h2
      · simp only [get_attribute, List.find?, hy2]
      · simp only [get_attribute, List.find?, hy2] at ih ⊢
        exact ih

theorem get_dbReplace_self {l : List Attribute} {h : Nat} {a' b : Attribute}
    (ha : a'.handle = h) (hb : get_attribute l h = some b) :
    get_attribute (dbReplace l h a') h = some a' := by
  induction l with
  | nil => simp [get_attribute, List.find?] at hb
  | cons y rest ih =>
    unfold dbReplace
    by_cases hy : y.handle == h
    · rw [if_pos hy]
      simp [get_attribute, List.find?, ha]
    · rw [if_neg hy]
      simp only [get_attribute, List.find?, hy] at hb ⊢
      exact ih hb

theorem updateFirstService_split (l : List ServiceInfo) (start last : Nat) :
    (updateFirstService l start last = l ∧ ∀ s ∈ l, s.start_handle ≠ start)
    ∨ (∃ l1 s0 l2, l = l1 ++ s0 :: l2 ∧ s0.start_handle = start ∧
        updateFirstService l start last
          = l1 ++ { s0 with end_handle := last } :: l2) := by
  induction l with
  | nil => exact Or.inl ⟨rfl, by simp⟩
  | cons y rest ih =>
    by_cases hy : y.start_handle == start
    · refine Or.inr ⟨[], y, rest, by simp, by simpa using hy, ?_⟩
      unfold updateFirstService
      rw [if_pos hy]
      simp
    · rcases ih with ⟨heq, hall⟩ | ⟨l1, s0, l2, hl, hs0, hupd⟩
      · refine Or.inl ⟨?_, ?_⟩
        · unfold updateFirstService
          rw [if_neg hy, heq]
        · intro s hs
          rcases List.mem_cons.mp hs with hh | hh
          · subst hh
            simpa using hy
          · exact hall s hh
      · refine Or.inr ⟨y :: l1, s0, l2, ?_, hs0, ?_⟩
        · simp [hl]
        · unfold updateFirstService
          rw [if_neg hy, hupd]
          simp

theorem descriptorOwnerUpdate_split (l : List ServiceInfo) (ch h : Nat) :
    (descriptorOwnerUpdate l ch h = (l, none)
      ∧ ∀ s ∈ l, ¬(s.start_handle ≤ ch ∧ ch ≤ s.end_handle))
    ∨ (∃ l1 s0 l2, l = l1 ++ s0 :: l2
        ∧ s0.start_handle ≤ ch ∧ ch ≤ s0.end_handle
        ∧ descriptorOwnerUpdate l ch h
            = (l1 ++ { s0 with end_handle := h } :: l2, some s0.start_handle)) := by
  induction l with
  | nil => exact Or.inl ⟨rfl, by simp⟩
  | cons y rest ih =>
    rcases ih with ⟨heq, hall⟩ | ⟨l1, s0, l2, hl, hc1, hc2, hupd⟩
    · by_cases hy : y.start_handle ≤ ch && ch ≤ y.end_handle
      · refine Or.inr ⟨[], y, rest, by simp, ?_, ?_, ?_⟩
        · exact (by simpa using hy : _ ∧ _).1
        · exact (by simpa using hy : _ ∧ _).2
        · show (match descriptorOwnerUpdate rest ch h with
            | (rest', some start) => (y :: rest', some start)
            | (rest', none) =>
              if y.start_handle ≤ ch && ch ≤ y.end_handle then
                ({ y with end_handle := h } :: rest', some y.start_handle)
              else (y :: rest', none)) = _
          rw [heq]
          simp only [hy, if_true]
          simp
      · refine Or.inl ⟨?_, ?_⟩
        · show (match descriptorOwnerUpdate rest ch h with
            | (rest', some start) => (y :: rest', some start)
            | (rest', none) =>
              if y.start_handle ≤ ch && ch ≤ y.end_handle then
                ({ y with end_handle := h } :: rest', some y.start_handle)
              else (y :: rest', none)) = _
          rw [heq]
          simp only [hy]
          simp
        · intro s hs
          rcases List.mem_cons.mp hs with hh | hh
          · subst hh
            simpa using hy
          · exact hall s hh
    · refine Or.inr ⟨y :: l1, s0, l2, ?_, hc1, hc2, ?_⟩
      · simp [hl]
      · show (match descriptorOwnerUpdate rest ch h with
          | (rest', some start) => (y :: rest', some start)
          | (rest', none) =>
            if y.start_handle ≤ ch && ch ≤ y.end_handle then
              ({ y with end_handle := h } :: rest', some y.start_handle)
            else (y :: rest', none)) = _
        rw [hupd]
        simp

theorem updateFirstService_map_start (l : List ServiceInfo) (start last : Nat) :
    (updateFirstService l start last).map (fun s => s.start_handle)
      = l.map (fun s => s.start_handle) := by
  induction l with
  | nil => rfl
  | cons y rest ih =>
    unfold updateFirstService
    by_cases hy : y.start_handle == start
    · rw [if_pos hy]
      simp
    · rw [if_neg hy]
      simp only [List.map]
      rw [ih]

theorem descriptorOwnerUpdate_map_start (l : List ServiceInfo) (ch h : Nat) :
    ((descriptorOwnerUpdate l ch h).1).map (fun s => s.start_handle)
      = l.map (fun s => s.start_handle) := by
  induction l with
  | nil => rfl
  | cons y rest ih =>
    show (((match descriptorOwnerUpdate rest ch h with
      | (rest', some start) => (y :: rest', some start)
      | (rest', none) =>
        if y.start_handle ≤ ch && ch ≤ y.end_handle then
          ({ y with end_handle := h } :: rest', some y.start_handle)
        else (y :: rest', none) : List ServiceInfo × Option Nat)).1).map
        (fun s => s.start_handle)
      = (y :: rest).map (fun s => s.start_handle)
    cases hrec : descriptorOwnerUpdate rest ch h with
    | mk rest' r =>
      rw [hrec] at ih
      cases r with
      | some start =>
        simp only [List.map]
        rw [ih]
      | none =>
        by_cases hy : y.start_handle ≤ ch && ch ≤ y.end_handle
        · simp only [hy, if_true, List.map]
          rw [ih]
        · simp only [hy, if_false, List.map]
          rw [ih]
theorem DbInv_empty : DbInv {} := by
  refine ⟨Nat.le_refl 1, ?_, ?_, ?_, ?_⟩ <;> simp [DbState.attributes, DbState.services]

theorem DbInv_starts_lt (st : DbState) (hinv : DbInv st) :
    ∀ sv ∈ st.services, sv.start_handle < st.next_handle := by
  intro sv hsv
  obtain ⟨hse, hend, -⟩ := hinv.2.2.2.2 sv hsv
  omega

theorem starts_lt_of_map_eq {l1 l2 : List ServiceInfo} {bound : Nat}
    (hmap : l1.map (fun s => s.start_handle) = l2.map (fun s => s.start_handle))
    (hP : ∀ sv ∈ l2, sv.start_handle < bound) :
    ∀ sv ∈ l1, sv.start_handle < bound := by
  intro sv hsv
  have hm : sv.start_handle ∈ l2.map (fun s => s.start_handle) := by
    rw [← hmap]
    exact List.mem_map_of_mem _ hsv
  obtain ⟨sv2, hsv2, heq⟩ := List.mem_map.mp hm
  rw [← heq]
  exact hP sv2 hsv2

theorem DbInv_bump (st : DbState) (hinv : DbInv st) :
    DbInv { st with next_handle := st.next_handle + 1 } := by
  obtain ⟨h1, h2, h3, h4, h5⟩ := hinv
  refine ⟨by show 1 ≤ st.next_handle + 1; omega, ?_, h3, h4, ?_⟩
  · intro x hx
    have := h2 x hx
    show x.handle < st.next_handle + 1
    omega
  · intro s hs
    obtain ⟨hse, hend, b, hget, hb⟩ := h5 s hs
    exact ⟨hse, by show s.end_handle < st.next_handle + 1; omega, b, hget, hb⟩

theorem DbInv_insert_fresh (st : DbState) (a : Attribute)
    (hinv : DbInv st) (ha : a.handle = st.next_handle) :
    DbInv { st with attributes := insertAttr st.attributes a,
                    next_handle := st.next_handle + 1 } := by
  obtain ⟨h1, h2, h3, h4, h5⟩ := hinv
  have hfresh : ∀ x ∈ st.attributes, x.handle ≠ a.handle := by
    intro x hx
    have := h2 x hx
    omega
  refine ⟨by show 1 ≤ st.next_handle + 1; omega, ?_, nodup_insertAttr hfresh h3, h4, ?_⟩
  · intro x hx
    rcases mem_insertAttr hx with hh | hh
    · have := h2 x hh
      show x.handle < st.next_handle + 1
      omega
    · rw [hh]
      show a.handle < st.next_handle + 1
      omega
  · intro s hs
    obtain ⟨hse, hend, b, hget, hb⟩ := h5 s hs
    refine ⟨hse, by show s.end_handle < st.next_handle + 1; omega, b, ?_, hb⟩
    rw [get_insertAttr_ne (by omega)]
    exact hget

theorem DbInv_new_service (st : DbState) (a : Attribute)
    (hinv : DbInv st) (ha : a.handle = st.next_handle)
    (hegh : a.end_group_handle = 65535) :
    DbInv { attributes := insertAttr st.attributes a,
            next_handle := st.next_handle + 1,
            services := st.services ++ [⟨st.next_handle, st.next_handle⟩] } := by
  obtain ⟨h1, h2, h3, h4, h5⟩ := hinv
  have hfresh : ∀ x ∈ st.attributes, x.handle ≠ a.handle := by
    intro x hx
    have := h2 x hx
    omega
  refine ⟨by show 1 ≤ st.next_handle + 1; omega, ?_, nodup_insertAttr hfresh h3, ?_, ?_⟩
  · intro x hx
    rcases mem_insertAttr hx with hh | hh
    · have := h2 x hh
      show x.handle < st.next_handle + 1
      omega
    · rw [hh]
      show a.handle < st.next_handle + 1
      omega
  · show ((st.services
        ++ [({ start_handle := st.next_handle,
               end_handle := st.next_handle } : ServiceInfo)]).map
      (fun s => s.start_handle)).Nodup
    simp only [List.map_append, List.map_cons, List.map_nil]
    have hperm := List.perm_append_singleton
      (st.next_handle) (st.services.map (fun s => s.start_handle))
    rw [List.Perm.nodup_iff hperm]
    refine List.nodup_cons.mpr ⟨?_, h4⟩
    intro hmem
    obtain ⟨sv, hsv, heq⟩ := List.mem_map.mp hmem
    have := DbInv_starts_lt st ⟨h1, h2, h3, h4, h5⟩ sv hsv
    omega
  · intro s hs
    rcases List.mem_append.mp hs with hmem | hmem
    · obtain ⟨hse, hend, b, hget, hb⟩ := h5 s hmem
      refine ⟨hse, by show s.end_handle < st.next_handle + 1; omega, b, ?_, hb⟩
      have hstart : s.start_handle < st.next_handle := by omega
      rw [get_insertAttr_ne (by omega)]
      exact hget
    · have hseq : s = ⟨st.next_handle, st.next_handle⟩ := by simpa using hmem
      subst hseq
      refine ⟨Nat.le_refl _, by show st.next_handle < st.next_handle + 1; omega, a, ?_, ?_⟩
      · show get_attribute (insertAttr st.attributes a) st.next_handle = some a
        rw [← ha]
        exact get_insertAttr_self
      · simp [hegh]

theorem DbInv_replace_nonstart (st : DbState) (h : Nat) (attr a' : Attribute)
    (hinv : DbInv st)
    (hget : get_attribute st.attributes h = some attr)
    (ha' : a'.handle = h)
    (hstart : ∀ sv ∈ st.services, sv.start_handle ≠ h) :
    DbInv { st with attributes := dbReplace st.attributes h a' } := by
  obtain ⟨h1, h2, h3, h4, h5⟩ := hinv
  have hath : attr.handle = h := get_attribute_handle _ _ _ hget
  have hmema : attr ∈ st.attributes := mem_of_get_attribute _ _ _ hget
  refine ⟨h1, ?_, ?_, h4, ?_⟩
  · intro x hx
    rcases mem_dbReplace hx with hh | hh
    · exact h2 x hh
    · rw [hh]
      have := h2 attr hmema
      show a'.handle < st.next_handle
      omega
  · rw [map_handle_dbReplace ha']
    exact h3
  · intro s hs
    obtain ⟨hse, hend, bb, hgetbb, hb⟩ := h5 s hs
    refine ⟨hse, hend, bb, ?_, hb⟩
    rw [get_dbReplace_ne ha' (hstart s hs)]
    exact hgetbb

theorem start_ne_of_nodup_split {l1 l2 : List ServiceInfo} {s0 s' : ServiceInfo}
    (hnd : ((l1 ++ s0 :: l2).map (fun s => s.start_handle)).Nodup)
    (hmem : s' ∈ l1 ∨ s' ∈ l2) : s'.start_handle ≠ s0.start_handle := by
  rw [List.map_append, List.map_cons] at hnd
  obtain ⟨hnd1, hnd2, hdisj⟩ := List.nodup_append.mp hnd
  rcases hmem with hm | hm
  · intro hcon
    refine hdisj (List.mem_map_of_mem _ hm) ?_
    rw [hcon]
    exact List.mem_cons_self _ _
  · obtain ⟨hnotin, -⟩ := List.nodup_cons.mp hnd2
    intro hcon
    refine hnotin ?_
    rw [← hcon]
    exact List.mem_map_of_mem _ hm

theorem DbInv_set_service_end (st : DbState) (l1 l2 : List ServiceInfo)
    (s0 : ServiceInfo) (last : Nat) (b : Attribute)
    (hst : st.services = l1 ++ s0 :: l2)
    (hinv : DbInv st)
    (hgetb : get_attribute st.attributes s0.start_handle = some b)
    (hlt : last < st.next_handle)
    (hslt : s0.start_handle < last) :
    DbInv { st with
      services := l1 ++ { s0 with end_handle := last } :: l2,
      attributes := dbReplace st.attributes s0.start_handle
        { b with end_group_handle := last } } := by
  obtain ⟨h1, h2, h3, h4, h5⟩ := hinv
  have hbh : b.handle = s0.start_handle := get_attribute_handle _ _ _ hgetb
  have ha' : ({ b with end_group_handle := last } : Attribute).handle = s0.start_handle := hbh
  have hmemb : b ∈ st.attributes := mem_of_get_attribute _ _ _ hgetb
  have hnd := h4
  rw [hst] at hnd
  refine ⟨h1, ?_, ?_, ?_, ?_⟩
  · intro x hx
    rcases mem_dbReplace hx with hh | hh
    · exact h2 x hh
    · rw [hh]
      have := h2 b hmemb
      show ({ b with end_group_handle := last } : Attribute).handle < st.next_handle
      omega
  · rw [map_handle_dbReplace ha']
    exact h3
  · show ((l1 ++ { s0 with end_handle := last } :: l2).map
      (fun s => s.start_handle)).Nodup
    have hmapeq : (l1 ++ { s0 with end_handle := last } :: l2).map
        (fun s => s.start_handle)
        = (l1 ++ s0 :: l2).map (fun s => s.start_handle) := by
      simp [List.map_append]
    rw [hmapeq]
    exact hnd
  · intro s' hs'
    rcases List.mem_append.mp hs' with hmem1 | hmem2
    · have hs'mem : s' ∈ st.services := by
        rw [hst]
        exact List.mem_append_left _ hmem1
      obtain ⟨hse, hend, bb, hgetbb, hb⟩ := h5 s' hs'mem
      have hne : s'.start_handle ≠ s0.start_handle :=
        start_ne_of_nodup_split hnd (Or.inl hmem1)
      refine ⟨hse, hend, bb, ?_, hb⟩
      rw [get_dbReplace_ne ha' hne]
      exact hgetbb
    · rcases List.mem_cons.mp hmem2 with hupd' | hmem2'
      · subst hupd'
        refine ⟨by show s0.start_handle ≤ last; omega,
          by show last < st.next_handle; exact hlt,
          { b with end_group_handle := last }, ?_, ?_⟩
        · exact get_dbReplace_self ha' hgetb
        · show ({ b with end_group_handle := last } : Attribute).end_group_handle
            = if last = s0.start_handle then 65535 else last
          rw [if_neg (by omega)]
      · have hs'mem : s' ∈ st.services := by
          rw [hst]
          exact List.mem_append_right _ (List.mem_cons_of_mem _ hmem2')
        obtain ⟨hse, hend, bb, hgetbb, hb⟩ := h5 s' hs'mem
        have hne : s'.start_handle ≠ s0.start_handle :=
          start_ne_of_nodup_split hnd (Or.inr hmem2')
        refine ⟨hse, hend, bb, ?_, hb⟩
        rw [get_dbReplace_ne ha' hne]
        exact hgetbb

theorem update_end_map_start (st : DbState) (s last : Nat) :
    (update_service_end_handle st s last).services.map (fun sv => sv.start_handle)
      = st.services.map (fun sv => sv.start_handle) := by
  unfold update_service_end_handle
  cases hget : get_attribute st.attributes s with
  | none => exact updateFirstService_map_start _ _ _
  | some attr => exact updateFirstService_map_start _ _ _

theorem DbInv_update_end (st : DbState) (s last : Nat)
    (hinv : DbInv st) (hlt : last < st.next_handle)
    (hgt : ∀ sv ∈ st.services, sv.start_handle < last) :
    DbInv (update_service_end_handle st s last) := by
  unfold update_service_end_handle
  rcases updateFirstService_split st.services s last with ⟨heq, hall⟩ |
    ⟨l1, s0, l2, hl, hs0, hupd⟩
  · rw [heq]
    cases hget : get_attribute st.attributes s with
    | none => exact hinv
    | some attr =>
      exact DbInv_replace_nonstart st s attr { attr with end_group_handle := last }
        hinv hget
        (show ({ attr with end_group_handle := last } : Attribute).handle = s from
          get_attribute_handle st.attributes s attr hget)
        hall
  · rw [hupd]
    have hs0mem : s0 ∈ st.services := by
      rw [hl]
      exact List.mem_append_right _ (List.mem_cons_self _ _)
    obtain ⟨-, -, b, hgetb, -⟩ := hinv.2.2.2.2 s0 hs0mem
    cases hget : get_attribute st.attributes s with
    | none =>
      exfalso
      rw [hs0, hget] at hgetb
      exact Option.noConfusion hgetb
    | some attr =>
      have hab : attr = b := by
        rw [hs0, hget] at hgetb
        exact Option.some.inj hgetb
      subst hab
      have hres := DbInv_set_service_end st l1 l2 s0 last attr hl hinv
        hgetb hlt (hgt s0 hs0mem)
      rw [← hs0]
      exact hres

theorem DbInv_add_primary (st : DbState) (u : UUID) (hinv : DbInv st) :
    DbInv (add_primary_service st u).2 := by
  cases hfull : (st.next_handle == 0xFFFF) with
  | true =>
    have heq : add_primary_service st u = (0, st) := by
      unfold add_primary_service allocate_handle
      simp [hfull]
    rw [heq]
    exact hinv
  | false =>
    have h1 := hinv.1
    have hz : (st.next_handle == 0) = false := by
      simp
      omega
    have heq : add_primary_service st u
        = (st.next_handle,
           { attributes := insertAttr st.attributes
               { handle := st.next_handle, type := .PRIMARY_SERVICE,
                 uuid := .u16 0x2800, permissions := ATT_PERM_READ,
                 value := serviceValueBytes u },
             next_handle := st.next_handle + 1,
             services := st.services
               ++ [⟨st.next_handle, st.next_handle⟩] }) := by
      unfold add_primary_service allocate_handle
      simp [hfull, hz]
    rw [heq]
    exact DbInv_new_service st _ hinv rfl rfl

theorem DbInv_add_secondary (st : DbState) (u : UUID) (hinv : DbInv st) :
    DbInv (add_secondary_service st u).2 := by
  cases hfull : (st.next_handle == 0xFFFF) with
  | true =>
    have heq : add_secondary_service st u = (0, st) := by
      unfold add_secondary_service allocate_handle
      simp [hfull]
    rw [heq]
    exact hinv
  | false =>
    have h1 := hinv.1
    have hz : (st.next_handle == 0) = false := by
      simp
      omega
    have heq : add_secondary_service st u
        = (st.next_handle,
           { attributes := insertAttr st.attributes
               { handle := st.next_handle, type := .SECONDARY_SERVICE,
                 uuid := .u16 0x2801, permissions := ATT_PERM_READ,
                 value := serviceValueBytes u },
             next_handle := st.next_handle + 1,
             services := st.services
               ++ [⟨st.next_handle, st.next_handle⟩] }) := by
      unfold add_secondary_service allocate_handle
      simp [hfull, hz]
    rw [heq]
    exact DbInv_new_service st _ hinv rfl rfl

theorem DbInv_add_include (st : DbState) (s i : Nat) (hinv : DbInv st) :
    DbInv (add_include st s i).2 := by
  cases hfull : (st.next_handle == 0xFFFF) with
  | true =>
    have heq : add_include st s i = (0, st) := by
      unfold add_include allocate_handle
      simp [hfull]
    rw [heq]
    exact hinv
  | false =>
    have h1 := hinv.1
    have hz : (st.next_handle == 0) = false := by
      simp
      omega
    cases hget : get_attribute st.attributes i with
    | none =>
      have heq : add_include st s i = (0, { st with next_handle := st.next_handle + 1 }) := by
        unfold add_include allocate_handle
        simp [hfull, hz, hget]
      rw [heq]
      exact DbInv_bump st hinv
    | some inc_svc =>
      cases huu : inc_svc.uuid with
      | u16 v =>
        have hinv2 := DbInv_insert_fresh st
          { handle := st.next_handle, type := .INCLUDE, uuid := .u16 0x2802,
            permissions := ATT_PERM_READ,
            value := [lo i, hi i, lo inc_svc.end_group_handle,
                      hi inc_svc.end_group_handle] ++ [lo v, hi v] }
          hinv rfl
        have heq : add_include st s i
            = (st.next_handle, update_service_end_handle
                { st with
                  attributes :=
                    insertAttr st.attributes
                      ({ handle := st.next_handle, type := .INCLUDE,
                         uuid := .u16 0x2802, permissions := ATT_PERM_READ,
                         value := [lo i, hi i, lo inc_svc.end_group_handle,
                                   hi inc_svc.end_group_handle] ++ [lo v, hi v] }),
                  next_handle := st.next_handle + 1 }
                s st.next_handle) := by
          unfold add_include allocate_handle
          simp [hfull, hz, hget, huu]
        rw [heq]
        refine DbInv_update_end _ s st.next_handle hinv2 ?_ ?_
        · show st.next_handle < st.next_handle + 1
          omega
        · intro sv hsv
          exact DbInv_starts_lt st hinv sv hsv
      | u128 bytes =>
        have hinv2 := DbInv_insert_fresh st
          { handle := st.next_handle, type := .INCLUDE, uuid := .u16 0x2802,
            permissions := ATT_PERM_READ,
            value := [lo i, hi i, lo inc_svc.end_group_handle,
                      hi inc_svc.end_group_handle] }
          hinv rfl
        have heq : add_include st s i
            = (st.next_handle, update_service_end_handle
                { st with
                  attributes :=
                    insertAttr st.attributes
                      ({ handle := st.next_handle, type := .INCLUDE,
                         uuid := .u16 0x2802, permissions := ATT_PERM_READ,
                         value := [lo i, hi i, lo inc_svc.end_group_handle,
                                   hi inc_svc.end_group_handle] }),
                  next_handle := st.next_handle + 1 }
                s st.next_handle) := by
          unfold add_include allocate_handle
          simp [hfull, hz, hget, huu]
        rw [heq]
        refine DbInv_update_end _ s st.next_handle hinv2 ?_ ?_
        · show st.next_handle < st.next_handle + 1
          omega
        · intro sv hsv
          exact DbInv_starts_lt st hinv sv hsv

theorem add_descriptor_spec (st : DbState) (ch : Nat) (u : UUID) (p : Nat)
    (hinv : DbInv st) :
    DbInv (add_descriptor st ch u p).2
    ∧ ((add_descriptor st ch u p).1 = 0
       ∨ ((add_descriptor st ch u p).1 = st.next_handle
          ∧ (add_descriptor st ch u p).2.next_handle = st.next_handle + 1
          ∧ (add_descriptor st ch u p).2.services.map (fun sv => sv.start_handle)
              = st.services.map (fun sv => sv.start_handle))) := by
  cases hfull : (st.next_handle == 0xFFFF) with
  | true =>
    have heq : add_descriptor st ch u p = (0, st) := by
      unfold add_descriptor allocate_handle
      simp [hfull]
    rw [heq]
    exact ⟨hinv, Or.inl rfl⟩
  | false =>
    have h1 := hinv.1
    have hz : (st.next_handle == 0) = false := by
      simp
      omega
    have hinv2 := DbInv_insert_fresh st
      { handle := st.next_handle, type := .DESCRIPTOR, uuid := u, permissions := p }
      hinv rfl
    rcases descriptorOwnerUpdate_split st.services ch st.next_handle with
      ⟨heq0, -⟩ | ⟨l1, s0, l2, hl, hc1, hc2, hupd⟩
    · have heq : add_descriptor st ch u p
          = (st.next_handle,
             { st with
               attributes :=
                 insertAttr st.attributes
                   ({ handle := st.next_handle, type := .DESCRIPTOR,
                      uuid := u, permissions := p }),
               next_handle := st.next_handle + 1 }) := by
        unfold add_descriptor allocate_handle
        simp [hfull, hz, heq0]
      rw [heq]
      exact ⟨hinv2, Or.inr ⟨rfl, rfl, rfl⟩⟩
    · have hs0mem : s0 ∈ st.services := by
        rw [hl]
        exact List.mem_append_right _ (List.mem_cons_self _ _)
      obtain ⟨hse0, hend0, b, hgetb, -⟩ := hinv.2.2.2.2 s0 hs0mem
      have hslt : s0.start_handle < st.next_handle := by omega
      have hgetb2 : get_attribute
          (insertAttr st.attributes
            ({ handle := st.next_handle, type := .DESCRIPTOR,
               uuid := u, permissions := p } : Attribute)) s0.start_handle
          = some b := by
        rw [get_insertAttr_ne (by show s0.start_handle ≠ st.next_handle; omega)]
        exact hgetb
      have hres := DbInv_set_service_end
        { st with
          attributes :=
            insertAttr st.attributes
              ({ handle := st.next_handle, type := .DESCRIPTOR,
                 uuid := u, permissions := p }),
          next_handle := st.next_handle + 1 }
        l1 l2 s0 st.next_handle b hl hinv2 hgetb2
        (by show st.next_handle < st.next_handle + 1; omega) hslt
      have heq : add_descriptor st ch u p
          = (st.next_handle,
             { st with
               attributes :=
                 dbReplace
                   (insertAttr st.attributes
                     ({ handle := st.next_handle, type := .DESCRIPTOR,
                        uuid := u, permissions := p }))
                   s0.start_handle { b with end_group_handle := st.next_handle },
               next_handle := st.next_handle + 1,
               services := l1 ++ { s0 with end_handle := st.next_handle } :: l2 }) := by
        unfold add_descriptor allocate_handle
        simp [hfull, hz, hupd, hgetb2]
      rw [heq]
      refine ⟨hres, Or.inr ⟨rfl, rfl, ?_⟩⟩
      show (l1 ++ { s0 with end_handle := st.next_handle } :: l2).map
          (fun sv => sv.start_handle) = st.services.map (fun sv => sv.start_handle)
      rw [hl]
      simp [List.map_append]

theorem add_cccd_spec (st : DbState) (ch : Nat) (hinv : DbInv st) :
    DbInv (add_cccd st ch).2
    ∧ ((add_cccd st ch).1 = 0
       ∨ ((add_cccd st ch).1 = st.next_handle
          ∧ (add_cccd st ch).2.next_handle = st.next_handle + 1
          ∧ (add_cccd st ch).2.services.map (fun sv => sv.start_handle)
              = st.services.map (fun sv => sv.start_handle))) := by
  obtain ⟨hinv1, hcase⟩ :=
    add_descriptor_spec st ch (.u16 0x2902) (ATT_PERM_READ ||| ATT_PERM_WRITE) hinv
  rcases hcase with hzero | ⟨hh, hnext, hsvc⟩
  · have heq : add_cccd st ch = (0, (add_descriptor st ch (.u16 0x2902)
        (ATT_PERM_READ ||| ATT_PERM_WRITE)).2) := by
      unfold add_cccd
      simp [hzero]
    rw [heq]
    exact ⟨hinv1, Or.inl rfl⟩
  · have h1 := hinv.1
    have hhne : (add_descriptor st ch (.u16 0x2902)
        (ATT_PERM_READ ||| ATT_PERM_WRITE)).1 ≠ 0 := by omega
    cases hget : get_attribute (add_descriptor st ch (.u16 0x2902)
        (ATT_PERM_READ ||| ATT_PERM_WRITE)).2.attributes
        (add_descriptor st ch (.u16 0x2902) (ATT_PERM_READ ||| ATT_PERM_WRITE)).1 with
    | none =>
      have heq : add_cccd st ch
          = ((add_descriptor st ch (.u16 0x2902) (ATT_PERM_READ ||| ATT_PERM_WRITE)).1,
             (add_descriptor st ch (.u16 0x2902) (ATT_PERM_READ ||| ATT_PERM_WRITE)).2) := by
        unfold add_cccd
        simp [hhne, hget]
      rw [heq]
      exact ⟨hinv1, Or.inr ⟨hh, hnext, hsvc⟩⟩
    | some attr =>
      have hstart : ∀ sv ∈ (add_descriptor st ch (.u16 0x2902)
          (ATT_PERM_READ ||| ATT_PERM_WRITE)).2.services,
          sv.start_handle ≠ (add_descriptor st ch (.u16 0x2902)
            (ATT_PERM_READ ||| ATT_PERM_WRITE)).1 := by
        intro sv hsv
        have hlt := starts_lt_of_map_eq hsvc (DbInv_starts_lt st hinv) sv hsv
        omega
      have hrep := DbInv_replace_nonstart _ _ attr { attr with value := [0x00, 0x00] }
        hinv1 hget
        (show ({ attr with value := [0x00, 0x00] } : Attribute).handle = _ from
          get_attribute_handle _ _ attr hget)
        hstart
      have heq : add_cccd st ch
          = ((add_descriptor st ch (.u16 0x2902) (ATT_PERM_READ ||| ATT_PERM_WRITE)).1,
             { (add_descriptor st ch (.u16 0x2902) (ATT_PERM_READ ||| ATT_PERM_WRITE)).2 with
               attributes := dbReplace
                 (add_descriptor st ch (.u16 0x2902) (ATT_PERM_READ ||| ATT_PERM_WRITE)).2.attributes
                 (add_descriptor st ch (.u16 0x2902) (ATT_PERM_READ ||| ATT_PERM_WRITE)).1
                 { attr with value := [0x00, 0x00] } }) := by
        unfold add_cccd
        simp [hhne, hget]
      rw [heq]
      exact ⟨hrep, Or.inr ⟨hh, hnext, hsvc⟩⟩

theorem DbInv_add_characteristic (st : DbState) (s : Nat) (uuid : UUID)
    (properties permissions : Nat) (hinv : DbInv st) :
    DbInv (add_characteristic st s uuid properties permissions).2 := by
  cases hfull : (st.next_handle == 0xFFFF) with
  | true =>
    have heq : add_characteristic st s uuid properties permissions = (0, st) := by
      unfold add_characteristic allocate_handle
      simp [hfull]
    rw [heq]
    exact hinv
  | false =>
    have h1 := hinv.1
    have hz : (st.next_handle == 0) = false := by
      simp
      omega
    cases hfull2 : (st.next_handle + 1 == 0xFFFF) with
    | true =>
      have heq : add_characteristic st s uuid properties permissions
          = (0, { st with next_handle := st.next_handle + 1 }) := by
        unfold add_characteristic allocate_handle
        simp [hfull, hfull2, hz]
      rw [heq]
      exact DbInv_bump st hinv
    | false =>
      have hz2 : (st.next_handle + 1 == 0) = false := by simp
      have hinvA := DbInv_insert_fresh st
        { handle := st.next_handle, type := .CHARACTERISTIC, uuid := .u16 0x2803,
          permissions := ATT_PERM_READ, properties := properties,
          value_handle := st.next_handle + 1,
          value := properties :: lo (st.next_handle + 1) :: hi (st.next_handle + 1) ::
            serviceValueBytes uuid }
        hinv rfl
      have hinvB := DbInv_insert_fresh _
        { handle := st.next_handle + 1, type := .CHARACTERISTIC_VALUE, uuid := uuid,
          permissions := permissions, properties := properties }
        hinvA rfl
      have hinv4 : DbInv (update_service_end_handle
          { attributes := insertAttr
              (insertAttr st.attributes
                { handle := st.next_handle, type := .CHARACTERISTIC,
                  uuid := .u16 0x2803, permissions := ATT_PERM_READ,
                  value := properties :: lo (st.next_handle + 1) ::
                    hi (st.next_handle + 1) :: serviceValueBytes uuid,
                  properties := properties,
                  value_handle := st.next_handle + 1 })
              { handle := st.next_handle + 1, type := .CHARACTERISTIC_VALUE,
                uuid := uuid, permissions := permissions,
                properties := properties },
            next_handle := st.next_handle + 1 + 1,
            services := st.services } s (st.next_handle + 1)) :=
        DbInv_update_end _ s (st.next_handle + 1) hinvB
          (by show st.next_handle + 1 < st.next_handle + 1 + 1; omega)
          (by
            intro sv hsv
            have := DbInv_starts_lt st hinv sv hsv
            show sv.start_handle < st.next_handle + 1
            omega)
      by_cases hni : properties &&& (GATT_CHR_PROP_NOTIFY ||| GATT_CHR_PROP_INDICATE) ≠ 0
      · obtain ⟨hinv5, hc⟩ := add_cccd_spec _ (st.next_handle + 1) hinv4
        unfold add_characteristic allocate_handle
        simp only [hfull, hfull2, hz, hz2, Bool.false_eq_true, if_false,
          Bool.or_self, hni, ne_eq, not_false_eq_true, if_true]
        rcases hc with hzero | ⟨hch, hnext5, hsvc5⟩
        · split
          · rename_i h
            exact absurd hzero h
          · exact hinv5
        · have hch2 : _ = st.next_handle + 1 + 1 := hch
          have hnext2 : _ = st.next_handle + 1 + 1 + 1 := hnext5
          split
          · refine DbInv_update_end _ s _ hinv5 ?_ ?_
            · exact hch2.trans_lt
                ((show st.next_handle + 1 + 1 < st.next_handle + 1 + 1 + 1 by
                  omega).trans_eq hnext2.symm)
            · intro sv hsv
              have hmap := hsvc5.trans (update_end_map_start _ s (st.next_handle + 1))
              have hlt2 := starts_lt_of_map_eq hmap (DbInv_starts_lt st hinv) sv hsv
              exact (show sv.start_handle < st.next_handle + 1 + 1 by
                omega).trans_eq hch2.symm
          · rename_i h
            have h0 := not_not.mp h
            exact absurd (h0.symm.trans hch2) (by omega)
      · unfold add_characteristic allocate_handle
        simp only [hfull, hfull2, hz, hz2, Bool.false_eq_true, if_false,
          Bool.or_self, if_neg hni]
        exact hinv4

/-- Any single database call preserves the well-formedness invariant. -/
theorem DbInv_applyOp (st : DbState) (op : DbOp) (hinv : DbInv st) :
    DbInv (applyOp st op) := by
  cases op with
  | addPrimary u => exact DbInv_add_primary st u hinv
  | addSecondary u => exact DbInv_add_secondary st u hinv
  | addInclude s i => exact DbInv_add_include st s i hinv
  | addChar s u props perms => exact DbInv_add_characteristic st s u props perms hinv
  | addDesc ch u perms => exact (add_descriptor_spec st ch u perms hinv).1

/-- Every reachable database state satisfies the invariant. -/
theorem DbInv_runOps (ops : List DbOp) : DbInv (runOps {} ops) := by
  suffices hgen : ∀ st, DbInv st → DbInv (ops.foldl applyOp st) from
    hgen {} DbInv_empty
  induction ops with
  | nil => exact fun st hst => hst
  | cons op rest ih =>
    intro st hst
    exact ih (applyOp st op) (DbInv_applyOp st op hst)

/-- C8 (counterexample): immediately after `add_primary_service` on an empty
database, the new service row (handle 1) has `end_group_handle` 0xFFFF, not
its own handle 1: the `Attribute` constructor initialises `end_group_handle`
to 0xFFFF and `add_primary_service` never overwrites it before a member is
added. -/
theorem C8_counterexample :
    (add_primary_service {} (UUID.u16 0x180F)).1 = 1
    ∧ (get_attribute (add_primary_service {} (UUID.u16 0x180F)).2.attributes 1).map
        (fun a => a.end_group_handle) = some 65535
    ∧ (65535 : Nat) ≠ 1 := by decide

/-- C8 (amended): after any sequence of database-building calls on an empty
database, every tracked service has `start_handle ≤ end_handle`, and its
service attribute row exists with `end_group_handle` equal to 0xFFFF while no
member handle has been added under the service (tracked end = start) and to
the tracked service end — the most recently added, hence largest, member
handle — once one has. -/
theorem C8_service_end_handle_amended (ops : List DbOp) :
    ∀ sv ∈ (runOps {} ops).services,
      sv.start_handle ≤ sv.end_handle
      ∧ ∃ a, get_attribute (runOps {} ops).attributes sv.start_handle = some a
          ∧ a.end_group_handle =
              (if sv.end_handle = sv.start_handle then 65535 else sv.end_handle) := by
  intro sv hsv
  obtain ⟨hse, hend, a, hget, hb⟩ := (DbInv_runOps ops).2.2.2.2 sv hsv
  exact ⟨hse, a, hget, hb⟩

/-- Witness for C8: a battery service (handle 1) with one notifying
characteristic (declaration 2, value 3, CCCD 4) is tracked as start 1,
end 4, and the service row's `end_group_handle` is 4. -/
theorem C8_service_end_handle_amended_witness :
    (⟨1, 4⟩ : ServiceInfo) ∈ (runOps {} [DbOp.addPrimary (UUID.u16 0x180F),
        DbOp.addChar 1 (UUID.u16 0x2A19) 0x12 0x03]).services
    ∧ ((1 : Nat) ≤ 4
       ∧ ∃ a, get_attribute (runOps {} [DbOp.addPrimary (UUID.u16 0x180F),
             DbOp.addChar 1 (UUID.u16 0x2A19) 0x12 0x03]).attributes 1 = some a
           ∧ a.end_group_handle = (if (4 : Nat) = 1 then 65535 else 4)) :=
  ⟨by decide, C8_service_end_handle_amended [DbOp.addPrimary (UUID.u16 0x180F),
    DbOp.addChar 1 (UUID.u16 0x2A19) 0x12 0x03] ⟨1, 4⟩ (by decide)⟩

end BLEPP
